import Mathlib

/-!
CI-NDA: enrollment, application and credential guards.

A shallow embedding of the request handlers of `routes/courses.js`,
`routes/opportunities.js` and `routes/auth.js` together with the Mongoose
schemas of `models/`, and of the browser helpers `CindaAPI.request`,
`CindaAPI.login` and `CindaAPI.register` (`public/js/api.js`) and
`FormUtils.getFormData`, `DateUtils.timeAgo` and `FileUtils.getFileExtension`
(`public/js/global.js`).  The
document store is an explicit value (`Store`) that each handler receives and
returns; every `await` on the store carries a flag saying whether the driver
rejects it, so that the `try`/`catch` of each handler is part of the model.

Conventions:
* an `ObjectId` is the canonical hexadecimal string that `ObjectId.toString()`
  produces; `req.userId` (set by the authentication middleware from the token
  claim `userId`) and `req.params.id` are such strings;
* a `Date` is a number of milliseconds since the epoch; the value of
  `Date.now()` / `new Date()` is an argument of the handler;
* a query parameter or body field is an optional string;
* functions of the runtime and of libraries (`toUpperCase`, the validators,
  bcrypt, the regular-expression engine behind `$regex`) are arguments; the
  examples instantiate them with small stand-ins.
-/

namespace CINDA

abbrev ObjectId := String

abbrev Date := Int

/-! ## models/course.js -/

/-- Element of `courseSchema.enrolledStudents`.  The enroll handler is the
only writer of these records and always sets `user`; the `_id` Mongoose gives a
sub-document plays no part in the handlers and is left out. -/
structure Enrollment where
  user : ObjectId
  enrolledAt : Date
  progress : Nat
  deriving DecidableEq, Repr

/-- Field `courseSchema.instructor`. -/
structure Instructor where
  name : String
  avatar : Option String
  bio : Option String
  deriving DecidableEq, Repr

/-- Element of `courseSchema.lessons`. -/
structure Lesson where
  title : Option String
  videoUrl : Option String
  duration : Option Nat
  resources : List String
  order : Option Nat
  deriving DecidableEq, Repr

/-- Field `courseSchema.ratings`. -/
structure Ratings where
  average : Nat
  count : Nat
  deriving DecidableEq, Repr

/-- A document of the `Course` model (`courseSchema`). -/
structure Course where
  _id : ObjectId
  title : String
  category : String
  instructor : Instructor
  description : String
  image : Option String
  duration : Option String
  level : String
  price : Nat
  enrolledStudents : List Enrollment
  lessons : List Lesson
  ratings : Ratings
  createdAt : Date
  deriving DecidableEq, Repr

/-! ## models/user.js -/

/-- Field `userSchema.socialLogin`. -/
structure SocialLogin where
  provider : Option String
  providerId : Option String
  deriving DecidableEq, Repr

/-- Field `userSchema.stats`. -/
structure Stats where
  followers : Nat
  following : Nat
  projects : Nat
  awards : Nat
  deriving DecidableEq, Repr

/-- A document of the `User` model (`userSchema`).  `password` holds what is
stored: the bcrypt hash, or nothing. -/
structure User where
  _id : ObjectId
  name : String
  email : String
  password : Option String
  userType : String
  avatar : Option String
  bio : Option String
  location : Option String
  specialization : List String
  website : Option String
  socialLogin : SocialLogin
  stats : Stats
  enrolledCourses : List ObjectId
  isVerified : Bool
  lastLogin : Option Date
  createdAt : Date
  deriving DecidableEq, Repr

/-! ## models/opportunity.js -/

/-- Element of `opportunitySchema.applications`.  The apply handler is the
only writer of these records and always sets `user`. -/
structure Application where
  user : ObjectId
  status : String
  coverLetter : Option String
  appliedAt : Date
  deriving DecidableEq, Repr

/-- Field `opportunitySchema.details`. -/
structure Details where
  funding : Option String
  location : Option String
  duration : Option String
  category : Option String
  deriving DecidableEq, Repr

/-- A document of the `Opportunity` model (`opportunitySchema`). -/
structure Opportunity where
  _id : ObjectId
  type : String
  title : String
  company : String
  description : String
  details : Details
  deadline : Date
  applications : List Application
  isActive : Bool
  createdAt : Date
  deriving DecidableEq, Repr

/-! ## The document store -/

/-- The three collections the handlers touch, each in insertion order. -/
structure Store where
  users : List User
  courses : List Course
  opportunities : List Opportunity
  deriving DecidableEq, Repr

/-- Outcome of the driver calls of one request: a flag set to `true` makes the
corresponding `await` reject, which the handler's `catch` turns into a 500. -/
structure Faults where
  find : Bool
  save : Bool
  update : Bool
  deriving DecidableEq, Repr

/-- Every store call of the request succeeds. -/
def Faults.none : Faults := ⟨false, false, false⟩

/-- A JSON answer `res.status(status).json({ message, ...payload })`. -/
structure Reply (α : Type) where
  status : Nat
  message : String
  payload : Option α
  deriving DecidableEq, Repr

/-- `Course.findById(id)`: the document with that `_id`, if any. -/
def Course.findById (courses : List Course) (id : ObjectId) : Option Course :=
  courses.find? (fun c => c._id == id)

/-- `course.save()` of a document read from the store: the stored document
with the same `_id` is replaced.  The handler changes no path that the schema
validates, so the validation step of `save` is not represented. -/
def Course.save : List Course → Course → List Course
  | [], _ => []
  | d :: ds, c => if d._id == c._id then c :: ds else d :: Course.save ds c

/-- `User.findByIdAndUpdate(id, { $push: { enrolledCourses: courseId } })`: the
user with that `_id`, if any, gets `courseId` appended. -/
def User.findByIdAndUpdate_push : List User → ObjectId → ObjectId → List User
  | [], _, _ => []
  | u :: us, id, courseId =>
    if u._id == id then { u with enrolledCourses := u.enrolledCourses ++ [courseId] } :: us
    else u :: User.findByIdAndUpdate_push us id courseId

/-- `User.findById(id)`, used to read a profile back. -/
def User.findById (users : List User) (id : ObjectId) : Option User :=
  users.find? (fun u => u._id == id)

/-! ## routes/courses.js : `router.post('/:id/enroll')` -/

/-- The sub-document created by `enrolledStudents.push({ user: req.userId })`:
the schema defaults fill `enrolledAt` with `Date.now()` and `progress` with 0. -/
def newEnrollment (now : Date) (userId : ObjectId) : Enrollment :=
  { user := userId, enrolledAt := now, progress := 0 }

/-- Handler of `POST /courses/:id/enroll` behind the `auth` middleware, which
supplies `userId`.  Returns the store after the request and the answer. -/
def enroll (io : Faults) (now : Date) (s : Store) (id : ObjectId) (userId : ObjectId) :
    Store × Reply Course :=
  if io.find then (s, ⟨500, "Error enrolling in course", none⟩)
  else
    match Course.findById s.courses id with
    | none => (s, ⟨404, "Course not found", none⟩)
    | some course =>
      let alreadyEnrolled := course.enrolledStudents.any (fun enrollment => enrollment.user == userId)
      if alreadyEnrolled then (s, ⟨400, "Already enrolled in this course", none⟩)
      else
        let course1 : Course :=
          { course with enrolledStudents := course.enrolledStudents ++ [newEnrollment now userId] }
        if io.save then (s, ⟨500, "Error enrolling in course", none⟩)
        else
          let s1 : Store := { s with courses := Course.save s.courses course1 }
          if io.update then (s1, ⟨500, "Error enrolling in course", none⟩)
          else
            let s2 : Store :=
              { s1 with users := User.findByIdAndUpdate_push s1.users userId course1._id }
            (s2, ⟨200, "Enrolled successfully", some course1⟩)

/-- One enroll request as it reaches the handler. -/
structure EnrollRequest where
  io : Faults
  now : Date
  id : ObjectId
  userId : ObjectId
  deriving DecidableEq, Repr

/-- Sequential execution: each request runs to completion on the store the
previous one left. -/
def enrollAll (s : Store) (reqs : List EnrollRequest) : Store :=
  reqs.foldl (fun st r => (enroll r.io r.now st r.id r.userId).1) s

/-- At most one enrollment record per user, in every course of the store. -/
def UniqueEnrollments (s : Store) : Prop :=
  ∀ c ∈ s.courses, (c.enrolledStudents.map (fun e => e.user)).Nodup

instance (s : Store) : Decidable (UniqueEnrollments s) :=
  inferInstanceAs (Decidable (∀ c ∈ s.courses,
    (c.enrolledStudents.map (fun (e : Enrollment) => e.user)).Nodup))

/-! ## Sample data -/

/-- A course document with the given identifier and enrollment list. -/
def sampleCourse (id : ObjectId) (enrolled : List Enrollment) : Course :=
  { _id := id, title := "Introduction to Cinematography", category := "CINEMATOGRAPHY",
    instructor := ⟨"Roger Deakins", none, some "Award-winning cinematographer"⟩,
    description := "Master the fundamentals of camera work", image := some "d.jpeg",
    duration := some "12 weeks", level := "Beginner", price := 0,
    enrolledStudents := enrolled, lessons := [], ratings := ⟨0, 0⟩, createdAt := 0 }

/-- A user document with the given identifier, e-mail and stored password. -/
def sampleUser (id : ObjectId) (email : String) (password : Option String) : User :=
  { _id := id, name := "User A", email := email, password := password, userType := "filmmaker",
    avatar := none, bio := none, location := none, specialization := [], website := none,
    socialLogin := ⟨none, none⟩, stats := ⟨0, 0, 0, 0⟩, enrolledCourses := [],
    isVerified := false, lastLogin := none, createdAt := 0 }

/-- User "u1" and course "c1" with no enrollment. -/
def sampleStore : Store :=
  { users := [sampleUser "u1" "a@example.com" (some "hash")],
    courses := [sampleCourse "c0" [⟨"u1", 5, 0⟩], sampleCourse "c1" []],
    opportunities := [] }

/-! ## routes/opportunities.js : `router.post('/:id/apply')` -/

/-- `Opportunity.findById(id)`: the document with that `_id`, if any. -/
def Opportunity.findById (opportunities : List Opportunity) (id : ObjectId) : Option Opportunity :=
  opportunities.find? (fun o => o._id == id)

/-- `opportunity.save()` of a document read from the store: the stored
document with the same `_id` is replaced.  The handler changes no path that
the schema validates, so the validation step of `save` is not represented. -/
def Opportunity.save : List Opportunity → Opportunity → List Opportunity
  | [], _ => []
  | d :: ds, o => if d._id == o._id then o :: ds else d :: Opportunity.save ds o

/-- The sub-document created by
`applications.push({ user: req.userId, coverLetter: req.body.coverLetter })`:
the schema defaults fill `status` with 'pending' and `appliedAt` with
`Date.now()`.  An absent cover letter stays absent. -/
def newApplication (now : Date) (userId : ObjectId) (coverLetter : Option String) : Application :=
  { user := userId, status := "pending", coverLetter := coverLetter, appliedAt := now }

/-- Handler of `POST /opportunities/:id/apply` behind the `auth` middleware,
which supplies `userId`; `coverLetter` is `req.body.coverLetter`.  The handler
reads no field of the opportunity other than `applications`. -/
def apply (io : Faults) (now : Date) (s : Store) (id : ObjectId) (userId : ObjectId)
    (coverLetter : Option String) : Store × Reply Unit :=
  if io.find then (s, ⟨500, "Error submitting application", none⟩)
  else
    match Opportunity.findById s.opportunities id with
    | none => (s, ⟨404, "Opportunity not found", none⟩)
    | some opportunity =>
      let alreadyApplied := opportunity.applications.any (fun app => app.user == userId)
      if alreadyApplied then (s, ⟨400, "Already applied to this opportunity", none⟩)
      else
        let opportunity1 : Opportunity :=
          { opportunity with
            applications := opportunity.applications ++ [newApplication now userId coverLetter] }
        if io.save then (s, ⟨500, "Error submitting application", none⟩)
        else
          ({ s with opportunities := Opportunity.save s.opportunities opportunity1 },
            ⟨200, "Application submitted successfully", none⟩)

/-- Two opportunity documents that agree on every field except possibly
`deadline`. -/
def SameButDeadline (o o1 : Opportunity) : Prop :=
  o1 = { o with deadline := o1.deadline }

/-- Two stores that agree on everything except possibly the deadlines of their
opportunities. -/
def DeadlineVariant (s s1 : Store) : Prop :=
  s1.users = s.users ∧ s1.courses = s.courses ∧
    List.Forall₂ SameButDeadline s.opportunities s1.opportunities

instance (o o1 : Opportunity) : Decidable (SameButDeadline o o1) :=
  inferInstanceAs (Decidable (o1 = { o with deadline := o1.deadline }))

instance (s s1 : Store) : Decidable (DeadlineVariant s s1) :=
  inferInstanceAs (Decidable (s1.users = s.users ∧ s1.courses = s.courses ∧
    List.Forall₂ SameButDeadline s.opportunities s1.opportunities))

/-- An opportunity document with the given identifier, deadline and
application list. -/
def sampleOpportunity (id : ObjectId) (deadline : Date) (apps : List Application) : Opportunity :=
  { _id := id, type := "GRANT", title := "Independent Film Production Grant",
    company := "Sundance Institute", description := "We are seeking original narratives",
    details := ⟨some "$50,000", some "Remote/Worldwide", none, some "Feature Film"⟩,
    deadline := deadline, applications := apps, isActive := true, createdAt := 0 }

/-- A store with one opportunity "o1" whose deadline, 100, nobody applied to. -/
def sampleOppStore : Store :=
  { users := [], courses := [],
    opportunities := [sampleOpportunity "o0" 5000 [⟨"u1", "accepted", some "hello", 7⟩],
      sampleOpportunity "o1" 100 []] }

/-- The store `sampleOppStore` with the deadline of "o1" moved to 900000. -/
def sampleOppStoreLate : Store :=
  { users := [], courses := [],
    opportunities := [sampleOpportunity "o0" 5000 [⟨"u1", "accepted", some "hello", 7⟩],
      sampleOpportunity "o1" 900000 []] }

/-! ## routes/auth.js and the `User` model -/

/-- Library and runtime functions the handlers call and this repository does
not define: the express-validator checks `isEmail` and `normalizeEmail`, the
string methods `trim` and `toLowerCase`, and `bcrypt.hash(_, 10)` /
`bcrypt.compare`. -/
structure Externals where
  isEmail : String → Bool
  normalizeEmail : String → String
  trim : String → String
  toLowerCase : String → String
  hash : String → String
  compare : String → String → Bool

/-- Claims of the token `jwt.sign({ userId, userType }, secret, { expiresIn })`. -/
structure Token where
  userId : ObjectId
  userType : String
  expiresIn : String
  deriving DecidableEq, Repr

/-- What the handlers write to `req.session`. -/
structure Session where
  userId : ObjectId
  userType : String
  deriving DecidableEq, Repr

/-- The `user` object of a success answer; `avatar` and `stats` are sent by
login only. -/
structure UserView where
  id : ObjectId
  name : String
  email : String
  userType : String
  avatar : Option String
  stats : Option Stats
  deriving DecidableEq, Repr

/-- Answers of the authentication routes: `{ errors }` of the validation
step, `{ message }`, or `{ message, token, user }`. -/
inductive AuthReply where
  | errors (status : Nat) (fields : List String)
  | message (status : Nat) (message : String)
  | granted (status : Nat) (message : String) (token : Token) (user : UserView)
  deriving DecidableEq, Repr

/-- Store, answer and session after an authentication request. -/
structure AuthResult where
  store : Store
  reply : AuthReply
  session : Option Session
  deriving DecidableEq, Repr

/-- Body of `POST /auth/register`; a field absent from the body fails its
validator exactly as the empty string does. -/
structure RegisterBody where
  name : String
  email : String
  password : String
  userType : String
  deriving DecidableEq, Repr

/-- Body of `POST /auth/login`; `userType` is not validated and may be absent. -/
structure LoginBody where
  email : String
  password : String
  userType : Option String
  deriving DecidableEq, Repr

/-- The `enum` of `userSchema.userType`, also the list of `isIn` in register. -/
def userTypes : List String := ["filmmaker", "mentor", "sponsor"]

/-- JavaScript truthiness of an optional string: present and not empty. -/
def truthy : Option String → Bool
  | none => false
  | some v => v != ""

/-- Setters of `userSchema.email` (`lowercase: true, trim: true`), applied when
the field is written and when it is used in a query condition. -/
def emailSetter (E : Externals) (email : String) : String :=
  E.toLowerCase (E.trim email)

/-- `User.findOne({ email })`. -/
def User.findOne (E : Externals) (users : List User) (email : String) : Option User :=
  users.find? (fun u => u.email == emailSetter E email)

/-- Validation run by `user.save()`: `name` and `email` are required,
`password` is required unless `socialLogin.provider` is set, `userType` is in
the enum.  A required string is rejected when absent or empty. -/
def User.validate (u : User) : Bool :=
  u.name != "" && u.email != "" &&
    (truthy u.socialLogin.provider || truthy u.password) &&
    userTypes.contains u.userType

/-- `userSchema.pre('save')`: hash the password when it was modified and is
not empty. -/
def preSave (E : Externals) (passwordModified : Bool) (u : User) : User :=
  if !passwordModified then u
  else
    match u.password with
    | some p => if p != "" then { u with password := some (E.hash p) } else u
    | none => u

/-- `userSchema.methods.comparePassword`. -/
def comparePassword (E : Externals) (u : User) (candidatePassword : String) : Bool :=
  match u.password with
  | none => false
  | some stored => if stored == "" then false else E.compare candidatePassword stored

/-- Insertion of a new user document; the unique index on `email` rejects a
second document with the same e-mail. -/
def User.create (users : List User) (u : User) : Option (List User) :=
  if users.any (fun d => d.email == u.email) then none else some (users ++ [u])

/-- Write-back of a user document read from the store: the stored document
with the same `_id` is replaced. -/
def User.update : List User → User → List User
  | [], _ => []
  | d :: ds, u => if d._id == u._id then u :: ds else d :: User.update ds u

/-- `new User({ name, email, password, userType })` with the schema's setters
and defaults; `freshId` is the generated `_id`. -/
def newUser (E : Externals) (now : Date) (freshId : ObjectId) (name email password userType : String) :
    User :=
  { _id := freshId, name := E.trim name, email := emailSetter E email, password := some password,
    userType := userType, avatar := none, bio := none, location := none, specialization := [],
    website := none, socialLogin := ⟨none, none⟩, stats := ⟨0, 0, 0, 0⟩, enrolledCourses := [],
    isVerified := false, lastLogin := none, createdAt := now }

/-- Fields rejected by the validation chain of register. -/
def registerErrors (E : Externals) (body : RegisterBody) : List String :=
  (if body.name == "" then ["name"] else []) ++
  (if E.isEmail body.email then [] else ["email"]) ++
  (if body.password.length < 6 then ["password"] else []) ++
  (if userTypes.contains body.userType then [] else ["userType"])

/-- Handler of `POST /auth/register`. -/
def register (E : Externals) (io : Faults) (now : Date) (freshId : ObjectId) (s : Store)
    (body : RegisterBody) : AuthResult :=
  let errors := registerErrors E body
  if !errors.isEmpty then ⟨s, .errors 400 errors, none⟩
  else
    let name := E.trim body.name
    let email := E.normalizeEmail body.email
    if io.find then ⟨s, .message 500 "Server error", none⟩
    else
      match User.findOne E s.users email with
      | some _ => ⟨s, .message 400 "User already exists", none⟩
      | none =>
        let user := newUser E now freshId name email body.password body.userType
        if !User.validate user then ⟨s, .message 500 "Server error", none⟩
        else
          let user := preSave E true user
          if io.save then ⟨s, .message 500 "Server error", none⟩
          else
            match User.create s.users user with
            | none => ⟨s, .message 500 "Server error", none⟩
            | some users =>
              ⟨{ s with users := users },
                .granted 201 "Registration successful" ⟨user._id, user.userType, "7d"⟩
                  ⟨user._id, user.name, user.email, user.userType, none, none⟩,
                some ⟨user._id, user.userType⟩⟩

/-- Fields rejected by the validation chain of login. -/
def loginErrors (E : Externals) (body : LoginBody) : List String :=
  (if E.isEmail body.email then [] else ["email"]) ++
  (if body.password == "" then ["password"] else [])

/-- The in-memory changes login makes to the user it found: the optional role
correction, then `lastLogin`. -/
def loginUpdate (now : Date) (userType : Option String) (user : User) : User :=
  let user1 : User :=
    match userType with
    | some t => if t != "" && user.userType != t then { user with userType := t } else user
    | none => user
  { user1 with lastLogin := some now }

/-- Handler of `POST /auth/login`. -/
def login (E : Externals) (io : Faults) (now : Date) (s : Store) (body : LoginBody) : AuthResult :=
  let errors := loginErrors E body
  if !errors.isEmpty then ⟨s, .errors 400 errors, none⟩
  else
    let email := E.normalizeEmail body.email
    if io.find then ⟨s, .message 500 "Server error", none⟩
    else
      match User.findOne E s.users email with
      | none => ⟨s, .message 400 "Invalid credentials", none⟩
      | some user =>
        let isMatch := comparePassword E user body.password
        if !isMatch then ⟨s, .message 400 "Invalid credentials", none⟩
        else
          let user := loginUpdate now body.userType user
          if !User.validate user then ⟨s, .message 500 "Server error", none⟩
          else
            let user := preSave E false user
            if io.save then ⟨s, .message 500 "Server error", none⟩
            else
              ⟨{ s with users := User.update s.users user },
                .granted 200 "Login successful" ⟨user._id, user.userType, "7d"⟩
                  ⟨user._id, user.name, user.email, user.userType, user.avatar, some user.stats⟩,
                some ⟨user._id, user.userType⟩⟩

/-- ASCII lower-casing, a stand-in for `toLowerCase` in examples. -/
def asciiLower (s : String) : String :=
  ⟨s.data.map Char.toLower⟩

/-- Removal of leading and trailing blanks, a stand-in for `trim` in examples. -/
def trimBlanks (s : String) : String :=
  ⟨((s.data.dropWhile (fun c => c == ' ')).reverse.dropWhile (fun c => c == ' ')).reverse⟩

/-- A concrete choice of the external functions for examples: an e-mail is
accepted when it contains '@', normalisation lower-cases, and the hash of `p`
is `p` behind a fixed marker. -/
def sampleExternals : Externals :=
  { isEmail := fun e => e.data.contains '@',
    normalizeEmail := asciiLower,
    trim := trimBlanks,
    toLowerCase := asciiLower,
    hash := fun p => "$2a$10$" ++ p,
    compare := fun p h => h == "$2a$10$" ++ p }

/-- A store with a password account `a@x.io` (password "secret1") and an
account `s@x.io` created through social login, which has no password. -/
def sampleAuthStore : Store :=
  { users := [sampleUser "u1" "a@x.io" (some "$2a$10$secret1"),
      { sampleUser "u2" "s@x.io" none with
        socialLogin := ⟨some "google", some "g-42"⟩, isVerified := true }],
    courses := [], opportunities := [] }

/-! ## routes/auth.js : `router.post('/social-login')` -/

/-- Body of `POST /auth/social-login`; the route has no validation chain, so
every field may be absent. -/
structure SocialBody where
  email : Option String
  name : Option String
  provider : Option String
  providerId : Option String
  userType : Option String
  deriving DecidableEq, Repr

/-- `userType || 'filmmaker'`. -/
def userTypeOrDefault (userType : Option String) : String :=
  match userType with
  | some t => if t != "" then t else "filmmaker"
  | none => "filmmaker"

/-- `new User({ name, email, userType: userType || 'filmmaker', socialLogin:
{ provider, providerId }, isVerified: true })` with the schema's setters and
defaults.  An absent `name` or `email` is represented by the empty string,
which `User.validate` rejects as Mongoose rejects the absence. -/
def newSocialUser (E : Externals) (now : Date) (freshId : ObjectId) (body : SocialBody) : User :=
  { _id := freshId,
    name := match body.name with
      | some n => E.trim n
      | none => "",
    email := match body.email with
      | some e => emailSetter E e
      | none => "",
    password := none, userType := userTypeOrDefault body.userType, avatar := none, bio := none,
    location := none, specialization := [], website := none,
    socialLogin := ⟨body.provider, body.providerId⟩, stats := ⟨0, 0, 0, 0⟩, enrolledCourses := [],
    isVerified := true, lastLogin := none, createdAt := now }

/-- The in-memory changes social-login makes to a user it found:
`lastLogin`, then `if (userType) user.userType = userType`. -/
def socialUpdate (now : Date) (userType : Option String) (user : User) : User :=
  let user1 : User := { user with lastLogin := some now }
  match userType with
  | some t => if t != "" then { user1 with userType := t } else user1
  | none => user1

/-- Handler of `POST /auth/social-login`.  With `email` absent the lookup
`User.findOne({ email: undefined })` finds nothing, every stored user having
an e-mail. -/
def socialLogin (E : Externals) (io : Faults) (now : Date) (freshId : ObjectId) (s : Store)
    (body : SocialBody) : AuthResult :=
  if io.find then ⟨s, .message 500 "Server error", none⟩
  else
    let found : Option User :=
      match body.email with
      | some email => User.findOne E s.users email
      | none => none
    match found with
    | none =>
      let user := newSocialUser E now freshId body
      if !User.validate user then ⟨s, .message 500 "Server error", none⟩
      else
        let user := preSave E false user
        if io.save then ⟨s, .message 500 "Server error", none⟩
        else
          match User.create s.users user with
          | none => ⟨s, .message 500 "Server error", none⟩
          | some users =>
            ⟨{ s with users := users },
              .granted 200 "Social login successful" ⟨user._id, user.userType, "7d"⟩
                ⟨user._id, user.name, user.email, user.userType, none, none⟩,
              some ⟨user._id, user.userType⟩⟩
    | some user =>
      let user := socialUpdate now body.userType user
      if !User.validate user then ⟨s, .message 500 "Server error", none⟩
      else
        let user := preSave E false user
        if io.save then ⟨s, .message 500 "Server error", none⟩
        else
          ⟨{ s with users := User.update s.users user },
            .granted 200 "Social login successful" ⟨user._id, user.userType, "7d"⟩
              ⟨user._id, user.name, user.email, user.userType, none, none⟩,
            some ⟨user._id, user.userType⟩⟩

/-! ## The list routes: `GET /opportunities` and `GET /courses` -/

/-- Answer of a list route: `res.json(list)` or `res.status(s).json({ message })`. -/
inductive ListReply (α : Type) where
  | items (list : List α)
  | error (status : Nat) (message : String)
  deriving DecidableEq, Repr

/-- ASCII upper-casing, a stand-in for `toUpperCase` in examples. -/
def asciiUpper (s : String) : String :=
  ⟨s.data.map Char.toUpper⟩

/-- The value of `query.type` in `GET /opportunities`:
`if (type && type !== 'All') query.type = type.toUpperCase()`. -/
def opportunityTypeQuery (toUpperCase : String → String) (type : Option String) : Option String :=
  match type with
  | some t => if t != "" && t != "All" then some (toUpperCase t) else none
  | none => none

/-- Whether an opportunity satisfies `{ isActive: true, type? }`. -/
def opportunityMatches (queryType : Option String) (o : Opportunity) : Bool :=
  o.isActive &&
    match queryType with
    | some t => o.type == t
    | none => true

/-- Handler of `GET /opportunities`; `type` is `req.query.type` and
`toUpperCase` the string method.  `.sort({ deadline: 1 })` is rendered by an
insertion sort, which keeps opportunities of equal deadline in store order. -/
def getOpportunities (toUpperCase : String → String) (io : Faults) (s : Store)
    (type : Option String) : ListReply Opportunity :=
  let queryType := opportunityTypeQuery toUpperCase type
  if io.find then .error 500 "Error fetching opportunities"
  else
    .items (List.insertionSort (fun a b : Opportunity => a.deadline ≤ b.deadline)
      (s.opportunities.filter (opportunityMatches queryType)))

/-- The server's regular-expression matching behind `$regex` with
`$options: 'i'`: whether a pattern is well formed, and whether a well-formed
pattern matches somewhere in a subject. -/
structure RegexEngine where
  valid : String → Bool
  test : String → String → Bool

/-- JavaScript `str.replace(a, b)` for one-character strings: only the first
occurrence is replaced. -/
def replaceFirst (a b : Char) : List Char → List Char
  | [] => []
  | c :: cs => if c == a then b :: cs else c :: replaceFirst a b cs

/-- The value of `query.category`:
`category.toUpperCase().replace(' ', '_')`. -/
def categoryFilter (toUpperCase : String → String) (category : String) : String :=
  ⟨replaceFirst ' ' '_' (toUpperCase category).data⟩

/-- The `enum` of `courseSchema.category`. -/
def courseCategories : List String :=
  ["CINEMATOGRAPHY", "EDITING", "DIRECTING", "SOUND DESIGN", "SCREENWRITING", "LIGHTING",
    "PRODUCTION DESIGN", "COLOR GRADING", "DOCUMENTARY"]

/-- The `enum` of `courseSchema.level`. -/
def courseLevels : List String := ["Beginner", "Intermediate", "Advanced"]

/-- The Mongo query `GET /courses` builds; an absent component puts no
condition. -/
structure CourseQuery where
  category : Option String
  level : Option String
  search : Option String
  deriving DecidableEq, Repr

/-- The query built from `req.query`:
`if (category && category !== 'All Courses') query.category = ...`,
`if (level && ![...].includes(level)) query.level = level`,
`if (search) query.$or = [...]`. -/
def courseQuery (toUpperCase : String → String) (category level search : Option String) :
    CourseQuery :=
  { category :=
      match category with
      | some c => if c != "" && c != "All Courses" then some (categoryFilter toUpperCase c) else none
      | none => none,
    level :=
      match level with
      | some l =>
        if l != "" && !(["All Courses", "Beginner", "Intermediate", "Advanced"].contains l)
        then some l else none
      | none => none,
    search :=
      match search with
      | some q => if q != "" then some q else none
      | none => none }

/-- Whether a course satisfies the query; the search condition is
`$or: [{ title: { $regex } }, { description: { $regex } }]`. -/
def courseMatches (R : RegexEngine) (q : CourseQuery) (c : Course) : Bool :=
  (match q.category with
    | some v => c.category == v
    | none => true) &&
  (match q.level with
    | some v => c.level == v
    | none => true) &&
  (match q.search with
    | some p => R.test p c.title || R.test p c.description
    | none => true)

/-- Handler of `GET /courses`.  A malformed search pattern makes the `find`
reject; `.sort({ createdAt: -1 })` is rendered by an insertion sort. -/
def getCourses (toUpperCase : String → String) (R : RegexEngine) (io : Faults) (s : Store)
    (category level search : Option String) : ListReply Course :=
  let q := courseQuery toUpperCase category level search
  let malformed :=
    match q.search with
    | some p => !R.valid p
    | none => false
  if io.find || malformed then .error 500 "Error fetching courses"
  else
    .items (List.insertionSort (fun a b : Course => b.createdAt ≤ a.createdAt)
      (s.courses.filter (courseMatches R q)))

/-- Whether pattern `p`, made of literal characters and the wildcard '.',
matches a prefix of the subject, letter case ignored. -/
def matchHere : List Char → List Char → Bool
  | [], _ => true
  | _ :: _, [] => false
  | p :: ps, c :: cs =>
    (if p == '.' then c != Char.ofNat 10 else p.toLower == c.toLower) && matchHere ps cs

/-- Whether the pattern matches at some position of the subject. -/
def matchAnywhere (p : List Char) : List Char → Bool
  | [] => matchHere p []
  | c :: cs => matchHere p (c :: cs) || matchAnywhere p cs

/-- A regular-expression engine for examples, restricted to patterns of
letters, digits, blanks and the wildcard '.'; any other pattern is reported
malformed. -/
def sampleRegex : RegexEngine :=
  { valid := fun p => p.data.all (fun c => c.isAlphanum || c == ' ' || c == '.'),
    test := fun p t => matchAnywhere p.data t.data }

/-- Whether `q` occurs in `t` as a contiguous substring, letter case ignored. -/
def occursIgnoringCase (q t : String) : Bool :=
  (t.data.map Char.toLower).tails.any (fun r => (q.data.map Char.toLower).isPrefixOf r)

/-- Three courses: an advanced editing course, a beginner sound-design course
and an intermediate cinematography course. -/
def sampleCourses : Store :=
  { users := [],
    courses :=
      [{ sampleCourse "c1" [] with
          title := "Editing", category := "EDITING", description := "Cuts", level := "Advanced",
          createdAt := 3 },
        { sampleCourse "c2" [] with
          title := "Foley", category := "SOUND DESIGN", description := "Sound", level := "Beginner",
          createdAt := 2 },
        { sampleCourse "c3" [] with
          title := "Lenses", category := "CINEMATOGRAPHY", description := "Glass",
          level := "Intermediate", createdAt := 1 }],
    opportunities := [] }

/-- Three opportunities: an active grant, an inactive job and an active job
with the earliest deadline. -/
def sampleListing : Store :=
  { users := [], courses := [],
    opportunities :=
      [{ sampleOpportunity "o1" 300 [] with type := "GRANT" },
        { sampleOpportunity "o2" 200 [] with type := "JOB", isActive := false },
        { sampleOpportunity "o3" 100 [] with type := "JOB" }] }

/-! ## The enroll handler at its `await` boundaries -/

/-- Where one run of the enroll handler stands: before the read of the
course, after the read, after the duplicate check with `course.save()` issued,
after the course write with `User.findByIdAndUpdate` issued, or answered. -/
inductive EnrollTask where
  | start
  | found (course : Option Course)
  | saving (course : Course)
  | updating (course : Course)
  | answered (reply : Reply Course)
  deriving DecidableEq, Repr

/-- The write performed by `course.save()` after `enrolledStudents.push(e)`:
Mongoose sends the change of the document, `$push` of the new sub-document
(without a condition on the version of the stored document), and the store
appends `e` to the document stored under that `_id`. -/
def Course.pushStored : List Course → ObjectId → Enrollment → List Course
  | [], _, _ => []
  | d :: ds, id, e =>
    if d._id == id then { d with enrolledStudents := d.enrolledStudents ++ [e] } :: ds
    else d :: Course.pushStored ds id e

/-- One atomic step of a run of the enroll handler on the shared store: the
read, the duplicate check (with the in-memory push), the course write, the
user update with the answer. -/
def enrollStep (now : Date) (id userId : ObjectId) (s : Store) : EnrollTask → Store × EnrollTask
  | .start => (s, .found (Course.findById s.courses id))
  | .found none => (s, .answered ⟨404, "Course not found", none⟩)
  | .found (some course) =>
    if course.enrolledStudents.any (fun enrollment => enrollment.user == userId) then
      (s, .answered ⟨400, "Already enrolled in this course", none⟩)
    else
      (s, .saving
        { course with enrolledStudents := course.enrolledStudents ++ [newEnrollment now userId] })
  | .saving course =>
    ({ s with courses := Course.pushStored s.courses course._id (newEnrollment now userId) },
      .updating course)
  | .updating course =>
    ({ s with users := User.findByIdAndUpdate_push s.users userId course._id },
      .answered ⟨200, "Enrolled successfully", some course⟩)
  | .answered reply => (s, .answered reply)

/-- Two runs of the enroll handler, for the same course and actor, sharing
the store. -/
structure EnrollPair where
  store : Store
  first : EnrollTask
  second : EnrollTask
  deriving DecidableEq, Repr

/-- Execution of a schedule: `false` lets the first request take its next
step, `true` the second. -/
def interleave (now1 now2 : Date) (id userId : ObjectId) : EnrollPair → List Bool → EnrollPair
  | p, [] => p
  | p, false :: rest =>
    interleave now1 now2 id userId
      ⟨(enrollStep now1 id userId p.store p.first).1, (enrollStep now1 id userId p.store p.first).2,
        p.second⟩ rest
  | p, true :: rest =>
    interleave now1 now2 id userId
      ⟨(enrollStep now2 id userId p.store p.second).1, p.first,
        (enrollStep now2 id userId p.store p.second).2⟩ rest

/-! ## models/mentorship.js -/

/-- Element of `mentorshipSchema.sessions`. -/
structure SessionRecord where
  title : Option String
  scheduledDate : Option Date
  duration : Option Nat
  notes : Option String
  completed : Bool
  feedback : Option String
  deriving DecidableEq, Repr

/-- Element of `mentorshipSchema.messages`. -/
structure Message where
  sender : Option ObjectId
  content : Option String
  timestamp : Date
  deriving DecidableEq, Repr

/-- A document of the `Mentorship` model (`mentorshipSchema`). -/
structure Mentorship where
  _id : ObjectId
  mentor : ObjectId
  mentee : ObjectId
  status : String
  specialties : List String
  bio : Option String
  yearsExperience : Option Nat
  availableSlots : Nat
  sessions : List SessionRecord
  messages : List Message
  createdAt : Date
  deriving DecidableEq, Repr

/-- The fields a caller may give when a mentorship is created. -/
structure MentorshipInput where
  mentor : ObjectId
  mentee : ObjectId
  status : Option String
  specialties : List String
  bio : Option String
  yearsExperience : Option Nat
  availableSlots : Option Nat
  deriving DecidableEq, Repr

/-- The fields a caller may give for a session. -/
structure SessionInput where
  title : Option String
  scheduledDate : Option Date
  duration : Option Nat
  notes : Option String
  completed : Option Bool
  feedback : Option String
  deriving DecidableEq, Repr

/-- `new Mentorship(input)`: the schema defaults fill `status` with 'pending',
`availableSlots` with 5 and `createdAt` with `Date.now()`; the lists start
empty. -/
def Mentorship.new (now : Date) (freshId : ObjectId) (input : MentorshipInput) : Mentorship :=
  { _id := freshId, mentor := input.mentor, mentee := input.mentee,
    status := input.status.getD "pending", specialties := input.specialties, bio := input.bio,
    yearsExperience := input.yearsExperience, availableSlots := input.availableSlots.getD 5,
    sessions := [], messages := [], createdAt := now }

/-- The sub-document a session input becomes: the schema default fills
`completed` with false. -/
def newSession (input : SessionInput) : SessionRecord :=
  { title := input.title, scheduledDate := input.scheduledDate, duration := input.duration,
    notes := input.notes, completed := input.completed.getD false, feedback := input.feedback }

/-- Modelled from the spec: the session-append action, whose handler
(`routes/mentorship.js`) is not among the sources.  "Any party may append a
session record to an active-or-pending mentorship": the record is pushed at the
end of `sessions`, and a mentorship in another status is refused. -/
def appendSession (m : Mentorship) (input : SessionInput) : Option Mentorship :=
  if m.status == "pending" || m.status == "active" then
    some { m with sessions := m.sessions ++ [newSession input] }
  else none

/-! ## public/js/api.js : `CindaAPI.request` and `CindaAPI.clearAuth` -/

/-- JavaScript `text.includes(part)`. -/
def includes (text part : String) : Bool :=
  text.data.tails.any (fun r => part.data.isPrefixOf r)

/-- The browser state `CindaAPI.request` reads and writes: the two fields of
the instance, the storage entries `clearAuth` removes, the redirects scheduled
through `setTimeout`, and the location of the page. -/
structure Browser where
  token : Option String
  isRedirectingAuth : Bool
  localAuthToken : Option String
  localUser : Option String
  sessionStorage : List (String × String)
  scheduled : List String
  pathname : String
  href : String
  deriving DecidableEq, Repr

/-- What the `try` block of `request` ends with: the parsed body of an ok
response; a response that is not ok, with the `message` of its body (if any;
'Request failed' when the body is no JSON) and the text
`HTTP <status>: <statusText>`; or a rejected `fetch`. -/
inductive FetchOutcome where
  | data (body : String)
  | notOk (message : Option String) (httpLine : String)
  | rejected (message : String)
  deriving DecidableEq, Repr

/-- `CindaAPI.clearAuth`. -/
def clearAuth (b : Browser) : Browser :=
  { b with token := none, isRedirectingAuth := false, localAuthToken := none, localUser := none,
           sessionStorage := [] }

/-- The message of the error caught by `request`:
`errorData.message || HTTP line` for a response that is not ok. -/
def errorMessage : FetchOutcome → Option String
  | .data _ => none
  | .notOk (some m) httpLine => if m != "" then some m else some httpLine
  | .notOk none httpLine => some httpLine
  | .rejected m => some m

/-- The `catch` block of `CindaAPI.request` for an error with the given
message. -/
def handleError (b : Browser) (message : String) : Browser :=
  if includes message "Token is invalid" || includes message "Token is missing" then
    let b1 := clearAuth b
    let currentPath := b1.pathname
    let isOnAuthPage := includes currentPath "authentication.html" || includes currentPath "signin.html"
    let isRedirecting := includes b1.href "redirecting"
    if !isOnAuthPage && !isRedirecting && !b1.isRedirectingAuth then
      { b1 with isRedirectingAuth := true, scheduled := b1.scheduled ++ ["authentication.html"] }
    else b1
  else b

/-- `CindaAPI.request`: the browser state afterwards, and the body returned or
the message of the error thrown. -/
def request (b : Browser) (outcome : FetchOutcome) : Browser × Except String String :=
  match outcome with
  | .data body => (b, .ok body)
  | .notOk m l =>
    (handleError b ((errorMessage (.notOk m l)).getD ""),
      .error ((errorMessage (.notOk m l)).getD ""))
  | .rejected m => (handleError b m, .error m)

/-- Requests issued one after the other on the same instance. -/
def requestAll (b : Browser) (outcomes : List FetchOutcome) : Browser :=
  outcomes.foldl (fun st o => (request st o).1) b

/-- A signed-in visitor on `index.html`, nothing scheduled. -/
def sampleBrowser : Browser :=
  { token := some "t0", isRedirectingAuth := false, localAuthToken := some "t0",
    localUser := some "user-a", sessionStorage := [("userLoggedIn", "true")], scheduled := [],
    pathname := "/index.html", href := "http://localhost:3000/index.html" }

/-! ## public/js/global.js : `FormUtils.getFormData` -/

/-- A value of a `FormData` entry: a string or a file. -/
inductive FormValue where
  | text (value : String)
  | file (name : String)
  deriving DecidableEq, Repr

/-- A property value of the object `getFormData` builds: one entry value, or
an array of entry values. -/
inductive DataValue where
  | single (value : FormValue)
  | array (values : List FormValue)
  deriving DecidableEq, Repr

/-- JavaScript truthiness of `data[key]`: an absent property and the empty
string are falsy; any other string, a file and an array are truthy. -/
def DataValue.truthy : Option DataValue → Bool
  | none => false
  | some (.single (.text v)) => v != ""
  | some (.single (.file _)) => true
  | some (.array _) => true

/-- `data[key]` for an own property of `data`, the properties being kept in
creation order.  Field names that are members of `Object.prototype` are not
represented. -/
def lookupKey (data : List (String × DataValue)) (key : String) : Option DataValue :=
  (data.find? (fun p => p.1 == key)).map (fun p => p.2)

/-- `data[key] = v`. -/
def assignKey : List (String × DataValue) → String → DataValue → List (String × DataValue)
  | [], key, v => [(key, v)]
  | p :: ps, key, v => if p.1 == key then (key, v) :: ps else p :: assignKey ps key v

/-- The body of the loop of `getFormData` for one entry. -/
def formStep (data : List (String × DataValue)) (entry : String × FormValue) :
    List (String × DataValue) :=
  if DataValue.truthy (lookupKey data entry.1) then
    match lookupKey data entry.1 with
    | some (.array vs) => assignKey data entry.1 (.array (vs ++ [entry.2]))
    | some (.single v) => assignKey data entry.1 (.array [v, entry.2])
    | none => data
  else assignKey data entry.1 (.single entry.2)

/-- `FormUtils.getFormData`, on the entries of the form in order. -/
def getFormData (entries : List (String × FormValue)) : List (String × DataValue) :=
  entries.foldl formStep []

/-- All values the entries give for a key, in entry order. -/
def valuesOf (entries : List (String × FormValue)) (key : String) : List FormValue :=
  (entries.filter (fun e => e.1 == key)).map (fun e => e.2)

/-- What a key with the given values should map to: nothing, the value of
its only entry, or the array of all its values. -/
def groupedValue : List FormValue → Option DataValue
  | [] => none
  | [v] => some (.single v)
  | v :: w :: vs => some (.array (v :: w :: vs))

/-! ## public/js/api.js : `CindaAPI.login`, `CindaAPI.register`, `saveAuth` -/

/-- The parsed JSON body of an answer of the authentication routes as the
client reads it: the fields `success`, `message`, `token` and `user`, each
possibly absent. -/
structure AuthBody where
  success : Option Bool
  message : Option String
  token : Option String
  user : Option UserView
  deriving DecidableEq, Repr

/-- The body of a success answer of register, login and social-login,
`res.json({ message, token, user })`; `sign` is `jwt.sign` with the server's
secret.  The body has no field `success`. -/
def successBody (sign : Token → String) : AuthReply → Option AuthBody
  | .granted _ message token user => some ⟨none, some message, some (sign token), some user⟩
  | _ => none

/-- What `this.request` ends with in the authentication methods: the parsed
body of an ok response, a response that is not ok, or a rejected `fetch`. -/
inductive AuthOutcome where
  | data (body : AuthBody)
  | notOk (message : Option String) (httpLine : String)
  | rejected (message : String)
  deriving DecidableEq, Repr

/-- What an authentication method of the client ends with: the body it
returns, or the message of the error it throws. -/
inductive AuthReturn where
  | returned (body : AuthBody)
  | thrown (message : String)
  deriving DecidableEq, Repr

/-- `storage.setItem(key, value)`. -/
def setItem : List (String × String) → String → String → List (String × String)
  | [], key, value => [(key, value)]
  | p :: ps, key, value => if p.1 == key then (key, value) :: ps else p :: setItem ps key value

/-- `CindaAPI.saveAuth`; `stringify` is `JSON.stringify`.  An absent value is
stored as the text 'undefined', and with `data.user` absent the method throws
at `data.user.userType`, after the first four assignments. -/
def CindaAPI.saveAuth (stringify : UserView → String) (b : Browser) (data : AuthBody) :
    Browser × Bool :=
  let userText :=
    match data.user with
    | some u => stringify u
    | none => "undefined"
  let b1 : Browser :=
    { b with
      token := data.token
      localAuthToken := some (data.token.getD "undefined")
      localUser := some userText
      sessionStorage := setItem b.sessionStorage "userLoggedIn" "true" }
  match data.user with
  | none => (b1, false)
  | some u =>
    let storage1 := setItem b1.sessionStorage "userType" u.userType
    let storage2 := setItem storage1 "userEmail" u.email
    ({ b1 with sessionStorage := setItem storage2 "userName" u.name }, true)

/-- The common body of `CindaAPI.register` and `CindaAPI.login`: the request
(whose failures are handled as in `CindaAPI.request`), then
`if (data.success) { this.saveAuth(data); return data; }` and otherwise
`throw new Error(data.message || fallback)`. -/
def CindaAPI.authenticate (stringify : UserView → String) (fallback : String) (b : Browser)
    (outcome : AuthOutcome) : Browser × AuthReturn :=
  match outcome with
  | .notOk m l =>
    (handleError b ((errorMessage (.notOk m l)).getD ""),
      .thrown ((errorMessage (.notOk m l)).getD ""))
  | .rejected m => (handleError b m, .thrown m)
  | .data data =>
    if data.success == some true then
      if (CindaAPI.saveAuth stringify b data).2 then
        ((CindaAPI.saveAuth stringify b data).1, .returned data)
      else ((CindaAPI.saveAuth stringify b data).1, .thrown "TypeError")
    else
      (b, .thrown (if truthy data.message then data.message.getD fallback else fallback))

/-- `CindaAPI.register`. -/
def CindaAPI.register (stringify : UserView → String) (b : Browser) (outcome : AuthOutcome) :
    Browser × AuthReturn :=
  CindaAPI.authenticate stringify "Registration failed" b outcome

/-- `CindaAPI.login`. -/
def CindaAPI.login (stringify : UserView → String) (b : Browser) (outcome : AuthOutcome) :
    Browser × AuthReturn :=
  CindaAPI.authenticate stringify "Login failed" b outcome

/-- A token text for examples. -/
def sampleSign (t : Token) : String :=
  "jwt." ++ t.userId ++ "." ++ t.userType

/-- A rendering of the user object for examples. -/
def sampleStringify (u : UserView) : String :=
  u.id ++ "," ++ u.name ++ "," ++ u.email ++ "," ++ u.userType

/-- A visitor who is not signed in, on `authentication.html`. -/
def sampleGuest : Browser :=
  { token := none, isRedirectingAuth := false, localAuthToken := none, localUser := none,
    sessionStorage := [], scheduled := [], pathname := "/authentication.html",
    href := "http://localhost:3000/authentication.html" }

/-! ## public/js/global.js : `DateUtils.timeAgo` -/

/-- The table `intervals` of `timeAgo`: label and length in seconds. -/
def intervals : List (String × Int) :=
  [("year", 31536000), ("month", 2592000), ("day", 86400), ("hour", 3600), ("minute", 60),
    ("second", 1)]

/-- The text `count label(s) ago` of the template literal. -/
def agoText (count : Int) (label : String) : String :=
  toString count ++ " " ++ label ++ (if count ≠ 1 then "s" else "") ++ " ago"

/-- The loop of `timeAgo` over the intervals; `/` on integers with a positive
divisor is the floor of the quotient, as `Math.floor(a / b)` is. -/
def timeAgoLoop (diffInSeconds : Int) : List (String × Int) → String
  | [] => "Just now"
  | interval :: rest =>
    let count := diffInSeconds / interval.2
    if count ≥ 1 then agoText count interval.1 else timeAgoLoop diffInSeconds rest

/-- `DateUtils.timeAgo(date)` at time `now`, both in milliseconds. -/
def timeAgo (now date : Date) : String :=
  timeAgoLoop ((now - date) / 1000) intervals

/-! ## public/js/global.js : `FileUtils.getFileExtension` -/

/-- The scan behind `lastIndexOf`: `i` is the index of the head, `acc` the last
index found so far. -/
def lastIndexOfFrom (c : Char) : List Char → Int → Int → Int
  | [], _, acc => acc
  | x :: xs, i, acc => lastIndexOfFrom c xs (i + 1) (if x == c then i else acc)

/-- `text.lastIndexOf(c)` for a one-character string `c`: the index of the
last occurrence, or -1. -/
def lastIndexOf (text : List Char) (c : Char) : Int :=
  lastIndexOfFrom c text 0 (-1)

/-- `x >>> 0` for an integer `x`: the value modulo 2^32. -/
def toUint32 (x : Int) : Int :=
  x % 4294967296

/-- `text.slice(start)`: a negative start counts from the end. -/
def slice (text : List Char) (start : Int) : List Char :=
  if start < 0 then text.drop (text.length - start.natAbs) else text.drop start.toNat

/-- `FileUtils.getFileExtension`:
`filename.slice((filename.lastIndexOf('.') - 1 >>> 0) + 2)`, where the
subtraction is done before the shift and the addition after it.  The index
returned by `lastIndexOf` and the start given to `slice` count the same units
of the string. -/
def getFileExtension (filename : String) : String :=
  ⟨slice filename.data (toUint32 (lastIndexOf filename.data '.' - 1) + 2)⟩

/-! ## A second choice of the validators for examples -/

/-- A stand-in for `normalizeEmail` with its default options on Gmail
addresses: the address is lower-cased, and the dots of the local part of an
address at `gmail.com` are removed. -/
def normalizeGmail (email : String) : String :=
  let lower := email.data.map Char.toLower
  let localPart := lower.takeWhile (fun c => c != '@')
  let domain := lower.dropWhile (fun c => c != '@')
  if domain == "@gmail.com".data then ⟨localPart.filter (fun c => c != '.') ++ domain⟩
  else ⟨lower⟩

/-- The external functions of `sampleExternals`, with `normalizeGmail` for
`normalizeEmail`. -/
def gmailExternals : Externals :=
  { sampleExternals with normalizeEmail := normalizeGmail }

/-- A store without documents. -/
def emptyStore : Store :=
  { users := [], courses := [], opportunities := [] }

/-- The store after "john.doe@gmail.com" has signed in through a provider on
the empty store. -/
def storeAfterSocialLogin : Store :=
  (socialLogin gmailExternals Faults.none 10 "u1" emptyStore
    ⟨some "john.doe@gmail.com", some "John", some "google", some "g1", none⟩).store

/-- Every course listed in a user's profile holds an enrollment record of
that user (courses that no longer exist put no condition). -/
def profileConsistent (s : Store) : Bool :=
  s.users.all (fun u => u.enrolledCourses.all (fun cid =>
    match Course.findById s.courses cid with
    | some c => c.enrolledStudents.any (fun e => e.user == u._id)
    | none => true))

/-! ## Store lemmas -/

theorem course_findById_id {cs : List Course} {id : ObjectId} {c : Course}
    (h : Course.findById cs id = some c) : c._id = id := by
  have := List.find?_some h
  simpa using this

theorem course_findById_mem {cs : List Course} {id : ObjectId} {c : Course}
    (h : Course.findById cs id = some c) : c ∈ cs :=
  List.mem_of_find?_eq_some h

theorem course_findById_save {cs : List Course} {id : ObjectId} {c c1 : Course}
    (h : Course.findById cs id = some c) (h1 : c1._id = id) :
    Course.findById (Course.save cs c1) id = some c1 := by
  induction cs with
  | nil => simp [Course.findById] at h
  | cons d ds ih =>
    unfold Course.findById at h ih ⊢
    by_cases hd : d._id = id
    · simp [Course.save, hd, h1]
    · have hd1 : ¬ d._id = c1._id := by rw [h1]; exact hd
      have hn : (d._id == id) = false := by simpa using hd
      simp only [List.find?_cons, hn] at h
      simp only [Course.save, beq_iff_eq, hd1, if_false, List.find?_cons, hn]
      exact ih h

theorem course_mem_save {cs : List Course} {c d : Course} (h : d ∈ Course.save cs c) :
    d ∈ cs ∨ d = c := by
  induction cs with
  | nil => simp [Course.save] at h
  | cons x xs ih =>
    by_cases hx : x._id = c._id
    · simp only [Course.save, beq_iff_eq, hx, if_true, List.mem_cons] at h
      rcases h with h | h
      · exact Or.inr h
      · exact Or.inl (List.mem_cons_of_mem _ h)
    · simp only [Course.save, beq_iff_eq, hx, if_false, List.mem_cons] at h
      rcases h with h | h
      · exact Or.inl (h ▸ List.mem_cons_self _ _)
      · rcases ih h with h2 | h2
        · exact Or.inl (List.mem_cons_of_mem _ h2)
        · exact Or.inr h2

theorem user_findById_push {us : List User} {id courseId : ObjectId} {u : User}
    (h : User.findById us id = some u) :
    User.findById (User.findByIdAndUpdate_push us id courseId) id =
      some { u with enrolledCourses := u.enrolledCourses ++ [courseId] } := by
  induction us with
  | nil => simp [User.findById] at h
  | cons d ds ih =>
    unfold User.findById at h ih ⊢
    by_cases hd : d._id = id
    · have hp : (d._id == id) = true := by simpa using hd
      simp only [List.find?_cons, hp, Option.some.injEq] at h
      subst h
      simp [User.findByIdAndUpdate_push, hd]
    · have hn : (d._id == id) = false := by simpa using hd
      simp only [List.find?_cons, hn] at h
      simp only [User.findByIdAndUpdate_push, hn, Bool.false_eq_true, if_false, List.find?_cons]
      exact ih h

theorem any_user_eq_false {l : List Enrollment} {userId : ObjectId}
    (h : ∀ e ∈ l, e.user ≠ userId) : l.any (fun e => e.user == userId) = false := by
  simpa [List.any_eq_false] using h

theorem any_user_eq_true {l : List Enrollment} {userId : ObjectId}
    (h : ∃ e ∈ l, e.user = userId) : l.any (fun e => e.user == userId) = true := by
  simpa [List.any_eq_true] using h

/-- What a fault-free enroll does when the actor has no record in the course. -/
theorem enroll_fresh (now : Date) (s : Store) (id userId : ObjectId) (c : Course)
    (hc : Course.findById s.courses id = some c)
    (hu : ∀ e ∈ c.enrolledStudents, e.user ≠ userId) :
    enroll Faults.none now s id userId =
      ({ s with
          courses := Course.save s.courses
            { c with enrolledStudents := c.enrolledStudents ++ [newEnrollment now userId] }
          users := User.findByIdAndUpdate_push s.users userId c._id },
        ⟨200, "Enrolled successfully",
          some { c with enrolledStudents := c.enrolledStudents ++ [newEnrollment now userId] }⟩) := by
  simp [enroll, Faults.none, hc, any_user_eq_false hu]

/-- What enroll does when the actor already has a record in the course. -/
theorem enroll_dup (io : Faults) (now : Date) (s : Store) (id userId : ObjectId) (c : Course)
    (hio : io.find = false) (hc : Course.findById s.courses id = some c)
    (hu : ∃ e ∈ c.enrolledStudents, e.user = userId) :
    enroll io now s id userId = (s, ⟨400, "Already enrolled in this course", none⟩) := by
  simp [enroll, hio, hc, any_user_eq_true hu]

theorem enroll_preserves_unique (io : Faults) (now : Date) (s : Store) (id userId : ObjectId)
    (h : UniqueEnrollments s) : UniqueEnrollments (enroll io now s id userId).1 := by
  unfold enroll
  by_cases hf : io.find = true
  · simpa [hf] using h
  · simp only [hf, if_false]
    cases hc : Course.findById s.courses id with
    | none => simpa using h
    | some c =>
      simp only
      by_cases ha : (c.enrolledStudents.any (fun enrollment => enrollment.user == userId)) = true
      · simpa [ha] using h
      · simp only [ha, if_false]
        have hnew : ∀ d ∈ Course.save s.courses
            { c with enrolledStudents := c.enrolledStudents ++ [newEnrollment now userId] },
            (d.enrolledStudents.map (fun e => e.user)).Nodup := by
          intro d hd
          rcases course_mem_save hd with hd | hd
          · exact h d hd
          · subst hd
            have hnd := h c (course_findById_mem hc)
            have hnot : userId ∉ c.enrolledStudents.map (fun e => e.user) := by
              intro hm
              apply ha
              rcases List.mem_map.1 hm with ⟨e, he, heq⟩
              exact any_user_eq_true ⟨e, he, heq⟩
            simp only [List.map_append, List.map_cons, List.map_nil, newEnrollment]
            rw [List.nodup_append]
            refine ⟨hnd, List.nodup_singleton _, ?_⟩
            intro a ha1 ha2
            rw [List.mem_singleton] at ha2
            subst ha2
            exact hnot ha1
        by_cases hs : io.save = true
        · simpa [hs] using h
        · simp only [hs, if_false]
          by_cases hup : io.update = true
          · simpa [hup, UniqueEnrollments] using hnew
          · simpa [hup, UniqueEnrollments] using hnew

/-! ## Enrollment guard -/

/-- C1: for a course found under `id` in which the actor has no enrollment
record, two sequential fault-free enroll calls for the same (course, actor):
the first answers 200 "Enrolled successfully", the second answers 400 "Already
enrolled in this course", and afterwards the course holds exactly one record
whose user is the actor (the one the first call appended). -/
theorem enroll_twice_one_record (now1 now2 : Date) (s : Store) (id userId : ObjectId)
    (c : Course) (hc : Course.findById s.courses id = some c)
    (hu : ∀ e ∈ c.enrolledStudents, e.user ≠ userId) :
    (enroll Faults.none now1 s id userId).2.status = 200 ∧
    (enroll Faults.none now1 s id userId).2.message = "Enrolled successfully" ∧
    (enroll Faults.none now2 (enroll Faults.none now1 s id userId).1 id userId).2 =
      ⟨400, "Already enrolled in this course", none⟩ ∧
    ∃ c2, Course.findById
        (enroll Faults.none now2 (enroll Faults.none now1 s id userId).1 id userId).1.courses id
          = some c2 ∧
      c2.enrolledStudents.filter (fun e => e.user == userId) = [newEnrollment now1 userId] := by
  have hid := course_findById_id hc
  have hfind : Course.findById (enroll Faults.none now1 s id userId).1.courses id =
      some { c with enrolledStudents := c.enrolledStudents ++ [newEnrollment now1 userId] } := by
    rw [enroll_fresh now1 s id userId c hc hu]
    exact course_findById_save hc hid
  have hdup := enroll_dup Faults.none now2 (enroll Faults.none now1 s id userId).1 id userId _
    rfl hfind ⟨newEnrollment now1 userId, by simp, rfl⟩
  refine ⟨?_, ?_, ?_, ?_⟩
  · rw [enroll_fresh now1 s id userId c hc hu]
  · rw [enroll_fresh now1 s id userId c hc hu]
  · rw [hdup]
  · rw [hdup]
    refine ⟨_, hfind, ?_⟩
    have h0 : c.enrolledStudents.filter (fun e => e.user == userId) = [] := by
      rw [List.filter_eq_nil_iff]
      intro e he
      simpa using hu e he
    simp [List.filter_append, h0, newEnrollment]

/-- Instance of C1: user "u1" enrolling twice in the empty course "c1". -/
theorem enroll_twice_one_record_witness :
    (enroll Faults.none 20 (enroll Faults.none 10 sampleStore "c1" "u1").1 "c1" "u1").2 =
      ⟨400, "Already enrolled in this course", none⟩ :=
  (enroll_twice_one_record 10 20 sampleStore "c1" "u1" (sampleCourse "c1" []) (by decide)
    (by simp [sampleCourse])).2.2.1

/-- C2: when the course's enrollment list already contains a record whose user
equals the actor, enroll answers 400 "Already enrolled in this course" and
returns the store it received: the course's enrollment list and the actor's
enrolled-course list are what they were. -/
theorem enroll_already_enrolled_no_mutation (io : Faults) (now : Date) (s : Store)
    (id userId : ObjectId) (c : Course) (hio : io.find = false)
    (hc : Course.findById s.courses id = some c)
    (hu : ∃ e ∈ c.enrolledStudents, e.user = userId) :
    (enroll io now s id userId).2 = ⟨400, "Already enrolled in this course", none⟩ ∧
    (enroll io now s id userId).1 = s ∧
    Course.findById (enroll io now s id userId).1.courses id = some c ∧
    User.findById (enroll io now s id userId).1.users userId = User.findById s.users userId := by
  rw [enroll_dup io now s id userId c hio hc hu]
  exact ⟨rfl, rfl, hc, rfl⟩

/-- Instance of C2: user "u1" is already enrolled in course "c0". -/
theorem enroll_already_enrolled_no_mutation_witness :
    (enroll Faults.none 30 sampleStore "c0" "u1").1 = sampleStore :=
  (enroll_already_enrolled_no_mutation Faults.none 30 sampleStore "c0" "u1"
    (sampleCourse "c0" [⟨"u1", 5, 0⟩]) rfl (by decide) ⟨⟨"u1", 5, 0⟩, by simp [sampleCourse], rfl⟩).2.1

/-- C3: for a course found under `id` in which the actor has no enrollment
record, a fault-free enroll answers 200 with the updated course, whose
enrollment list is the previous list followed by the single record
`{user: actor, enrolledAt: now, progress: 0}` (every other field of the course
as before), and the actor's user document, when there is one, has the course
identifier appended to its enrolled-course list. -/
theorem enroll_appends_record (now : Date) (s : Store) (id userId : ObjectId) (c : Course)
    (hc : Course.findById s.courses id = some c)
    (hu : ∀ e ∈ c.enrolledStudents, e.user ≠ userId) :
    (enroll Faults.none now s id userId).2 =
      ⟨200, "Enrolled successfully",
        some { c with enrolledStudents :=
          c.enrolledStudents ++ [{ user := userId, enrolledAt := now, progress := 0 }] }⟩ ∧
    Course.findById (enroll Faults.none now s id userId).1.courses id =
      some { c with enrolledStudents :=
        c.enrolledStudents ++ [{ user := userId, enrolledAt := now, progress := 0 }] } ∧
    (∀ u, User.findById s.users userId = some u →
      User.findById (enroll Faults.none now s id userId).1.users userId =
        some { u with enrolledCourses := u.enrolledCourses ++ [id] }) := by
  have hid := course_findById_id hc
  rw [enroll_fresh now s id userId c hc hu]
  refine ⟨rfl, ?_, ?_⟩
  · exact course_findById_save hc hid
  · intro u hu1
    have h2 : User.findById (User.findByIdAndUpdate_push s.users userId c._id) userId =
        some { u with enrolledCourses := u.enrolledCourses ++ [c._id] } := user_findById_push hu1
    rw [hid] at h2
    simpa [hid] using h2

/-- Instance of C3, the scenario of the specification: user "u1" enrolls in
course "c1", which has no enrollment. -/
theorem enroll_appends_record_witness :
    (Course.findById (enroll Faults.none 10 sampleStore "c1" "u1").1.courses "c1").map
        (fun c => c.enrolledStudents) = some [{ user := "u1", enrolledAt := 10, progress := 0 }] ∧
    (User.findById (enroll Faults.none 10 sampleStore "c1" "u1").1.users "u1").map
        (fun u => u.enrolledCourses) = some ["c1"] := by
  have h := enroll_appends_record 10 sampleStore "c1" "u1" (sampleCourse "c1" []) (by decide)
    (by simp [sampleCourse])
  rw [h.2.1, h.2.2 (sampleUser "u1" "a@example.com" (some "hash")) (by decide)]
  exact ⟨rfl, rfl⟩

/-- C4: "every course holds at most one enrollment record per user" is
preserved by any finite sequence of enroll requests executed one after the
other, whatever courses and actors they name and whichever store calls fail. -/
theorem enrollAll_preserves_unique (s : Store) (reqs : List EnrollRequest)
    (h : UniqueEnrollments s) : UniqueEnrollments (enrollAll s reqs) := by
  induction reqs generalizing s with
  | nil => exact h
  | cons r rs ih =>
    simp only [enrollAll, List.foldl_cons]
    exact ih _ (enroll_preserves_unique r.io r.now s r.id r.userId h)

/-- Instance of C4: three requests, two of them for the same (course, actor). -/
theorem enrollAll_preserves_unique_witness :
    UniqueEnrollments (enrollAll sampleStore
      [⟨Faults.none, 10, "c1", "u1"⟩, ⟨Faults.none, 11, "c1", "u1"⟩, ⟨Faults.none, 12, "c0", "u2"⟩]) :=
  enrollAll_preserves_unique sampleStore _ (by decide)

/-! ## Application guard -/

theorem opportunity_findById_id {os : List Opportunity} {id : ObjectId} {o : Opportunity}
    (h : Opportunity.findById os id = some o) : o._id = id := by
  have := List.find?_some h
  simpa using this

theorem opportunity_findById_save {os : List Opportunity} {id : ObjectId} {o o1 : Opportunity}
    (h : Opportunity.findById os id = some o) (h1 : o1._id = id) :
    Opportunity.findById (Opportunity.save os o1) id = some o1 := by
  induction os with
  | nil => simp [Opportunity.findById] at h
  | cons d ds ih =>
    unfold Opportunity.findById at h ih ⊢
    by_cases hd : d._id = id
    · simp [Opportunity.save, hd, h1]
    · have hd1 : ¬ d._id = o1._id := by rw [h1]; exact hd
      have hn : (d._id == id) = false := by simpa using hd
      simp only [List.find?_cons, hn] at h
      simp only [Opportunity.save, beq_iff_eq, hd1, if_false, List.find?_cons, hn]
      exact ih h

theorem any_applicant_eq_false {l : List Application} {userId : ObjectId}
    (h : ∀ a ∈ l, a.user ≠ userId) : l.any (fun app => app.user == userId) = false := by
  simpa [List.any_eq_false] using h

/-- What apply does, the store calls succeeding, when the actor has no
application in the opportunity. -/
theorem apply_fresh (io : Faults) (now : Date) (s : Store) (id userId : ObjectId)
    (coverLetter : Option String) (o : Opportunity) (hf : io.find = false) (hs : io.save = false)
    (ho : Opportunity.findById s.opportunities id = some o)
    (hu : ∀ a ∈ o.applications, a.user ≠ userId) :
    apply io now s id userId coverLetter =
      ({ s with
          opportunities := Opportunity.save s.opportunities
            { o with applications := o.applications ++ [newApplication now userId coverLetter] } },
        ⟨200, "Application submitted successfully", none⟩) := by
  simp [apply, hf, hs, ho, any_applicant_eq_false hu]

/-- What apply does when the actor already has an application. -/
theorem apply_dup (io : Faults) (now : Date) (s : Store) (id userId : ObjectId)
    (coverLetter : Option String) (o : Opportunity) (hf : io.find = false)
    (ho : Opportunity.findById s.opportunities id = some o)
    (hu : ∃ a ∈ o.applications, a.user = userId) :
    apply io now s id userId coverLetter =
      (s, ⟨400, "Already applied to this opportunity", none⟩) := by
  have : o.applications.any (fun app => app.user == userId) = true := by
    simpa [List.any_eq_true] using hu
  simp [apply, hf, ho, this]

/-- C5: for an opportunity found under `id` in which the actor has no
application record, two sequential apply calls for the same (opportunity,
actor), with any two cover letters and the store calls succeeding: the first
answers 200, the second answers 400 "Already applied to this opportunity", and
afterwards the opportunity holds exactly one application whose user is the
actor (the one of the first call). -/
theorem apply_twice_one_record (now1 now2 : Date) (s : Store) (id userId : ObjectId)
    (cl1 cl2 : Option String) (o : Opportunity)
    (ho : Opportunity.findById s.opportunities id = some o)
    (hu : ∀ a ∈ o.applications, a.user ≠ userId) :
    (apply Faults.none now1 s id userId cl1).2 =
      ⟨200, "Application submitted successfully", none⟩ ∧
    (apply Faults.none now2 (apply Faults.none now1 s id userId cl1).1 id userId cl2).2 =
      ⟨400, "Already applied to this opportunity", none⟩ ∧
    ∃ o2, Opportunity.findById
        (apply Faults.none now2 (apply Faults.none now1 s id userId cl1).1 id userId cl2).1.opportunities
          id = some o2 ∧
      o2.applications.filter (fun a => a.user == userId) = [newApplication now1 userId cl1] := by
  have hid := opportunity_findById_id ho
  have h1 := apply_fresh Faults.none now1 s id userId cl1 o rfl rfl ho hu
  have hfind : Opportunity.findById (apply Faults.none now1 s id userId cl1).1.opportunities id =
      some { o with applications := o.applications ++ [newApplication now1 userId cl1] } := by
    rw [h1]
    exact opportunity_findById_save ho hid
  have hdup := apply_dup Faults.none now2 (apply Faults.none now1 s id userId cl1).1 id userId cl2 _
    rfl hfind ⟨newApplication now1 userId cl1, by simp, rfl⟩
  refine ⟨by rw [h1], by rw [hdup], ?_⟩
  rw [hdup]
  refine ⟨_, hfind, ?_⟩
  have h0 : o.applications.filter (fun a => a.user == userId) = [] := by
    rw [List.filter_eq_nil_iff]
    intro a ha
    simpa using hu a ha
  simp [List.filter_append, h0, newApplication]

/-- Instance of C5: user "u1" applies twice to opportunity "o1". -/
theorem apply_twice_one_record_witness :
    (apply Faults.none 20 (apply Faults.none 10 sampleOppStore "o1" "u1" (some "first")).1
      "o1" "u1" (some "second")).2 = ⟨400, "Already applied to this opportunity", none⟩ :=
  (apply_twice_one_record 10 20 sampleOppStore "o1" "u1" (some "first") (some "second")
    (sampleOpportunity "o1" 100 []) (by decide) (by simp [sampleOpportunity])).2.1

theorem opportunity_findById_save_ne {os : List Opportunity} {id id1 : ObjectId}
    {o1 : Opportunity} (h1 : o1._id = id) (hne : id1 ≠ id) :
    Opportunity.findById (Opportunity.save os o1) id1 = Opportunity.findById os id1 := by
  induction os with
  | nil => rfl
  | cons d ds ih =>
    unfold Opportunity.findById at ih ⊢
    have hn1 : (o1._id == id1) = false := by
      rw [h1]; simpa using fun h => hne h.symm
    by_cases hd : d._id = o1._id
    · have hn2 : (d._id == id1) = false := by rw [hd]; exact hn1
      simp [Opportunity.save, hd, List.find?_cons, hn1]
    · simp only [Opportunity.save, beq_iff_eq, hd, if_false, List.find?_cons]
      rw [ih]

/-- C6: when apply succeeds (answer 200), the opportunity found under `id`
had its application list extended by exactly one record at the end,
`{user: actor, status: 'pending', coverLetter: the request's cover letter,
appliedAt: now}`, every earlier application and every other field being as
before; when apply does not succeed the store is the one it received; and no
call changes an opportunity stored under another identifier.  Hence apply never
changes the status of an existing application. -/
theorem apply_success_appends_pending (io : Faults) (now : Date) (s : Store) (id userId : ObjectId)
    (coverLetter : Option String) :
    ((apply io now s id userId coverLetter).2.status = 200 →
      ∃ o, Opportunity.findById s.opportunities id = some o ∧
        Opportunity.findById (apply io now s id userId coverLetter).1.opportunities id =
          some { o with applications := o.applications ++
            [{ user := userId, status := "pending", coverLetter := coverLetter,
               appliedAt := now }] }) ∧
    ((apply io now s id userId coverLetter).2.status ≠ 200 →
      (apply io now s id userId coverLetter).1 = s) ∧
    (∀ id1, id1 ≠ id →
      Opportunity.findById (apply io now s id userId coverLetter).1.opportunities id1 =
        Opportunity.findById s.opportunities id1) := by
  unfold apply
  by_cases hf : io.find = true
  · simp [hf]
  · simp only [hf, if_false]
    cases ho : Opportunity.findById s.opportunities id with
    | none => simp
    | some o =>
      simp only
      have hid := opportunity_findById_id ho
      by_cases ha : (o.applications.any (fun app => app.user == userId)) = true
      · simp [ha]
      · simp only [ha, if_false]
        by_cases hs : io.save = true
        · simp [hs]
        · simp only [hs, if_false]
          refine ⟨fun _ => ⟨o, rfl, opportunity_findById_save ho hid⟩, fun h => absurd rfl h, ?_⟩
          intro id1 hne
          exact opportunity_findById_save_ne hid hne

/-- Instance of C6: a second applicant to "o0" leaves the accepted application
of "u1" in place. -/
theorem apply_success_appends_pending_witness :
    ∃ o, Opportunity.findById sampleOppStore.opportunities "o0" = some o ∧
      Opportunity.findById
          (apply Faults.none 10 sampleOppStore "o0" "u2" (some "letter")).1.opportunities "o0" =
        some { o with applications := o.applications ++
          [{ user := "u2", status := "pending", coverLetter := some "letter", appliedAt := 10 }] } :=
  (apply_success_appends_pending Faults.none 10 sampleOppStore "o0" "u2" (some "letter")).1
    (by decide)

theorem sameButDeadline_id_eq {o o1 : Opportunity} (h : SameButDeadline o o1) : o1._id = o._id := by
  unfold SameButDeadline at h
  rw [h]

theorem sameButDeadline_applications_eq {o o1 : Opportunity} (h : SameButDeadline o o1) :
    o1.applications = o.applications := by
  unfold SameButDeadline at h
  rw [h]

theorem sameButDeadline_push {o o1 : Opportunity} (h : SameButDeadline o o1) (a : Application) :
    SameButDeadline { o with applications := o.applications ++ [a] }
      { o1 with applications := o1.applications ++ [a] } := by
  unfold SameButDeadline at h ⊢
  rw [h]

theorem deadlineVariant_findById {l l1 : List Opportunity}
    (h : List.Forall₂ SameButDeadline l l1) (id : ObjectId) :
    (Opportunity.findById l id = none ∧ Opportunity.findById l1 id = none) ∨
    ∃ o o1, Opportunity.findById l id = some o ∧ Opportunity.findById l1 id = some o1 ∧
      SameButDeadline o o1 := by
  induction h with
  | nil => exact Or.inl ⟨rfl, rfl⟩
  | @cons a b as bs hd _ ih =>
    have hb : b._id = a._id := sameButDeadline_id_eq hd
    unfold Opportunity.findById at ih ⊢
    by_cases ha : a._id = id
    · refine Or.inr ⟨a, b, ?_, ?_, hd⟩
      · simp [List.find?_cons, ha]
      · simp [List.find?_cons, hb, ha]
    · have hn : (a._id == id) = false := by simpa using ha
      have hn1 : (b._id == id) = false := by rw [hb]; exact hn
      simp only [List.find?_cons, hn, hn1]
      exact ih

theorem deadlineVariant_save {l l1 : List Opportunity}
    (h : List.Forall₂ SameButDeadline l l1) {o o1 : Opportunity} (ho : SameButDeadline o o1) :
    List.Forall₂ SameButDeadline (Opportunity.save l o) (Opportunity.save l1 o1) := by
  induction h with
  | nil => exact List.Forall₂.nil
  | @cons a b as bs hd htl ih =>
    have hb : b._id = a._id := sameButDeadline_id_eq hd
    have ho1 : o1._id = o._id := sameButDeadline_id_eq ho
    by_cases ha : a._id = o._id
    · have hb1 : b._id = o1._id := by rw [hb, ho1, ha]
      simp only [Opportunity.save, ha, hb1, beq_self_eq_true, if_true]
      exact List.Forall₂.cons ho htl
    · have hb1 : ¬ b._id = o1._id := by rw [hb, ho1]; exact ha
      simp only [Opportunity.save, beq_iff_eq, ha, hb1, if_false]
      exact List.Forall₂.cons hd ih

/-- The answer of apply and the shape of the store it leaves do not depend on
any deadline. -/
theorem apply_deadline_variant (io : Faults) (now : Date) (s s1 : Store) (id userId : ObjectId)
    (coverLetter : Option String) (h : DeadlineVariant s s1) :
    (apply io now s1 id userId coverLetter).2 = (apply io now s id userId coverLetter).2 ∧
    DeadlineVariant (apply io now s id userId coverLetter).1
      (apply io now s1 id userId coverLetter).1 := by
  obtain ⟨hu, hc, ho⟩ := h
  unfold apply
  by_cases hf : io.find = true
  · rw [if_pos hf, if_pos hf]
    exact ⟨rfl, hu, hc, ho⟩
  · rw [if_neg hf, if_neg hf]
    rcases deadlineVariant_findById ho id with ⟨h0, h1⟩ | ⟨o, o1, h0, h1, hoo⟩
    · rw [h0, h1]
      exact ⟨rfl, hu, hc, ho⟩
    · rw [h0, h1]
      simp only [sameButDeadline_applications_eq hoo]
      by_cases ha : (o.applications.any (fun app => app.user == userId)) = true
      · rw [if_pos ha, if_pos ha]
        exact ⟨rfl, hu, hc, ho⟩
      · rw [if_neg ha, if_neg ha]
        by_cases hs : io.save = true
        · rw [if_pos hs, if_pos hs]
          exact ⟨rfl, hu, hc, ho⟩
        · rw [if_neg hs, if_neg hs]
          refine ⟨rfl, hu, hc, ?_⟩
          have := deadlineVariant_save ho (sameButDeadline_push hoo (newApplication now userId coverLetter))
          simpa [sameButDeadline_applications_eq hoo] using this

/-- C7: apply does not look at deadlines.  For two stores that differ only in
the deadlines of their opportunities, the same request gets the same answer,
leaves stores that again differ only in deadlines, and leaves the same
application list on the opportunity addressed; and an actor with no prior
application who applies, the store calls succeeding, to an opportunity whose
deadline is earlier than now is answered 200. -/
theorem apply_ignores_deadline (io : Faults) (now : Date) (s s1 : Store) (id userId : ObjectId)
    (coverLetter : Option String) (h : DeadlineVariant s s1) :
    (apply io now s1 id userId coverLetter).2 = (apply io now s id userId coverLetter).2 ∧
    DeadlineVariant (apply io now s id userId coverLetter).1
      (apply io now s1 id userId coverLetter).1 ∧
    (Opportunity.findById (apply io now s1 id userId coverLetter).1.opportunities id).map
        (fun o => o.applications) =
      (Opportunity.findById (apply io now s id userId coverLetter).1.opportunities id).map
        (fun o => o.applications) ∧
    (∀ o, Opportunity.findById s.opportunities id = some o → o.deadline < now →
      (∀ a ∈ o.applications, a.user ≠ userId) → io.find = false → io.save = false →
      (apply io now s id userId coverLetter).2 =
        ⟨200, "Application submitted successfully", none⟩) := by
  obtain ⟨h1, h2⟩ := apply_deadline_variant io now s s1 id userId coverLetter h
  refine ⟨h1, h2, ?_, ?_⟩
  · rcases deadlineVariant_findById h2.2.2 id with ⟨ha, hb⟩ | ⟨o, o1, ha, hb, hoo⟩
    · rw [ha, hb]
    · rw [ha, hb]
      simp [sameButDeadline_applications_eq hoo]
  · intro o ho _ hu hf hs
    rw [apply_fresh io now s id userId coverLetter o hf hs ho hu]

/-- Instance of C7: at time 50000 opportunity "o1" is applied to with deadline
100 (already past) and with deadline 900000; the answers agree, and the
application past the deadline is accepted. -/
theorem apply_ignores_deadline_witness :
    (apply Faults.none 50000 sampleOppStoreLate "o1" "u1" none).2 =
      (apply Faults.none 50000 sampleOppStore "o1" "u1" none).2 ∧
    (apply Faults.none 50000 sampleOppStore "o1" "u1" none).2 =
      ⟨200, "Application submitted successfully", none⟩ :=
  have h := apply_ignores_deadline Faults.none 50000 sampleOppStore sampleOppStoreLate "o1" "u1" none
    (by decide)
  ⟨h.1, h.2.2.2 (sampleOpportunity "o1" 100 []) (by decide) (by decide)
    (by simp [sampleOpportunity]) rfl rfl⟩

/-! ## Credential guard -/

theorem user_findById_update {us : List User} {id : ObjectId} {u u1 : User}
    (h : User.findById us id = some u) (h1 : u1._id = id) :
    User.findById (User.update us u1) id = some u1 := by
  induction us with
  | nil => simp [User.findById] at h
  | cons d ds ih =>
    unfold User.findById at h ih ⊢
    by_cases hd : d._id = id
    · simp [User.update, hd, h1]
    · have hd1 : ¬ d._id = u1._id := by rw [h1]; exact hd
      have hn : (d._id == id) = false := by simpa using hd
      simp only [List.find?_cons, hn] at h
      simp only [User.update, beq_iff_eq, hd1, if_false, List.find?_cons, hn]
      exact ih h

theorem preSave_email (E : Externals) (m : Bool) (u : User) : (preSave E m u).email = u.email := by
  unfold preSave
  cases m with
  | false => rfl
  | true =>
    cases hp : u.password with
    | none => rfl
    | some p =>
      by_cases hne : p = ""
      · simp [hne]
      · simp [hne]

theorem preSave_false (E : Externals) (u : User) : preSave E false u = u := rfl

/-- A register call that answers with a token has appended one user whose
stored e-mail is the sanitised e-mail of the request. -/
theorem register_granted (E : Externals) (io : Faults) (now : Date) (freshId : ObjectId)
    (s : Store) (body : RegisterBody) (st : Nat) (msg : String) (t : Token) (v : UserView)
    (h : (register E io now freshId s body).reply = .granted st msg t v) :
    ∃ u, u.email = emailSetter E (E.normalizeEmail body.email) ∧
      (register E io now freshId s body).store.users = s.users ++ [u] := by
  unfold register at h ⊢
  by_cases he : (registerErrors E body).isEmpty = true
  · simp only [he, Bool.not_true, Bool.false_eq_true, if_false] at h ⊢
    by_cases hf : io.find = true
    · simp [hf] at h
    · simp only [hf, if_false] at h ⊢
      cases hfo : User.findOne E s.users (E.normalizeEmail body.email) with
      | some u0 => simp [hfo] at h
      | none =>
        simp only [hfo] at h ⊢
        by_cases hv : User.validate
            (newUser E now freshId (E.trim body.name) (E.normalizeEmail body.email) body.password
              body.userType) = true
        · simp only [hv, Bool.not_true, Bool.false_eq_true, if_false] at h ⊢
          by_cases hs : io.save = true
          · simp [hs] at h
          · simp only [hs, if_false] at h ⊢
            cases hc : User.create s.users (preSave E true
                (newUser E now freshId (E.trim body.name) (E.normalizeEmail body.email)
                  body.password body.userType)) with
            | none => simp [hc] at h
            | some users =>
              simp only [hc] at h ⊢
              refine ⟨preSave E true (newUser E now freshId (E.trim body.name)
                (E.normalizeEmail body.email) body.password body.userType), ?_, ?_⟩
              · rw [preSave_email]
                rfl
              · unfold User.create at hc
                split at hc
                · simp at hc
                · simpa using hc.symm
        · simp [hv] at h
  · simp [he] at h

theorem user_findOne_append_new (E : Externals) (users : List User) (u : User) (email : String)
    (h : u.email = emailSetter E email) :
    ∃ u0, User.findOne E (users ++ [u]) email = some u0 := by
  unfold User.findOne
  rw [List.find?_append]
  cases hfo : List.find? (fun d => d.email == emailSetter E email) users with
  | some u0 => exact ⟨u0, rfl⟩
  | none => exact ⟨u, by simp [List.find?_cons, h]⟩

/-- What register does when the lookup by e-mail finds a user. -/
theorem register_found (E : Externals) (io : Faults) (now : Date) (freshId : ObjectId)
    (s : Store) (body : RegisterBody) (u : User) (hvalid : registerErrors E body = [])
    (hio : io.find = false)
    (hu : User.findOne E s.users (E.normalizeEmail body.email) = some u) :
    register E io now freshId s body = ⟨s, .message 400 "User already exists", none⟩ := by
  simp [register, hvalid, hio, hu]

theorem user_findOne_of_mem (E : Externals) (users : List User) (email : String)
    (h : ∃ u ∈ users, u.email = emailSetter E email) :
    ∃ u0, User.findOne E users email = some u0 := by
  unfold User.findOne
  cases hfo : List.find? (fun d => d.email == emailSetter E email) users with
  | some u0 => exact ⟨u0, rfl⟩
  | none =>
    obtain ⟨u, hu, hue⟩ := h
    have := List.find?_eq_none.1 hfo u hu
    simp [hue] at this

/-- Where the lookup of register finds the user.  For a registration request
that passes the validation chain, the lookup not failing: if the store holds a
user whose stored e-mail is the stored form of the request's e-mail (sanitised
by `normalizeEmail`, then lower-cased and trimmed by the schema), the handler
answers 400 "User already exists" and
returns the store it received, so no user is created and the existing one is
untouched; in particular this is what happens to a register that follows a
successful register whose e-mail has the same stored form (the same e-mail, or
one that the sanitisers map to it), whatever the other fields of the two
requests. -/
theorem register_existing_email_conflict (E : Externals) (io : Faults) (now : Date)
    (freshId : ObjectId) (s : Store) (body : RegisterBody)
    (hvalid : registerErrors E body = []) (hio : io.find = false) :
    ((∃ u ∈ s.users, u.email = emailSetter E (E.normalizeEmail body.email)) →
      register E io now freshId s body = ⟨s, .message 400 "User already exists", none⟩) ∧
    (∀ (io0 : Faults) (now0 : Date) (id0 : ObjectId) (s0 : Store) (body0 : RegisterBody)
        (st : Nat) (msg : String) (t : Token) (v : UserView),
      emailSetter E (E.normalizeEmail body0.email) = emailSetter E (E.normalizeEmail body.email) →
      (register E io0 now0 id0 s0 body0).reply = .granted st msg t v →
      s = (register E io0 now0 id0 s0 body0).store →
      register E io now freshId s body = ⟨s, .message 400 "User already exists", none⟩) := by
  refine ⟨?_, ?_⟩
  · intro hex
    obtain ⟨u0, hu0⟩ := user_findOne_of_mem E s.users (E.normalizeEmail body.email) hex
    exact register_found E io now freshId s body u0 hvalid hio hu0
  · intro io0 now0 id0 s0 body0 st msg t v hem hgr hs
    obtain ⟨u, hue, husers⟩ := register_granted E io0 now0 id0 s0 body0 st msg t v hgr
    rw [hem] at hue
    obtain ⟨u0, hu0⟩ := user_findOne_append_new E s0.users u (E.normalizeEmail body.email) hue
    rw [← husers, ← hs] at hu0
    exact register_found E io now freshId s body u0 hvalid hio hu0

/-- Instance: "b@x.io" registers, then registers again with the same e-mail and
another name, password and role. -/
theorem register_existing_email_conflict_witness :
    register sampleExternals Faults.none 60 "u4"
        (register sampleExternals Faults.none 50 "u3" sampleAuthStore
          ⟨"Bob", "b@x.io", "secret1", "mentor"⟩).store
        ⟨"Bobby", "b@x.io", "another1", "sponsor"⟩ =
      ⟨(register sampleExternals Faults.none 50 "u3" sampleAuthStore
          ⟨"Bob", "b@x.io", "secret1", "mentor"⟩).store,
        .message 400 "User already exists", none⟩ :=
  (register_existing_email_conflict sampleExternals Faults.none 60 "u4" _
      ⟨"Bobby", "b@x.io", "another1", "sponsor"⟩ (by decide) rfl).2
    Faults.none 50 "u3" sampleAuthStore ⟨"Bob", "b@x.io", "secret1", "mentor"⟩
    201 "Registration successful" ⟨"u3", "mentor", "7d"⟩ ⟨"u3", "Bob", "b@x.io", "mentor", none, none⟩
    rfl (by decide) rfl

/-- C9, as stated, fails: the account "s@x.io" has no stored password, and a
login for it with the empty password is answered by the validation step with
400 and the error list, not with the message "Invalid credentials". -/
theorem login_empty_password_validation_error :
    (User.findOne sampleExternals sampleAuthStore.users
        (sampleExternals.normalizeEmail "s@x.io")).map (fun u => u.password) = some none ∧
    login sampleExternals Faults.none 50 sampleAuthStore ⟨"s@x.io", "", none⟩ =
      ⟨sampleAuthStore, .errors 400 ["password"], none⟩ ∧
    (login sampleExternals Faults.none 50 sampleAuthStore ⟨"s@x.io", "", none⟩).reply ≠
      .message 400 "Invalid credentials" := by
  decide

/-- C9, amended: `comparePassword` is false for every candidate when the user
has no stored password; a login that passes the validation chain (e-mail
accepted by `isEmail`, password not empty), finds the user and whose password
does not verify (none is stored, or `bcrypt.compare` rejects it) is answered 400
"Invalid credentials" with no token, no session and the store as received; and
a login rejected by the validation chain is answered 400 with the error list,
again with no token and the store as received. -/
theorem login_unverified_invalid_credentials (E : Externals) (io : Faults) (now : Date)
    (s : Store) (body : LoginBody) (u : User) :
    (u.password = none → ∀ pw, comparePassword E u pw = false) ∧
    (∀ stored, u.password = some stored → E.compare body.password stored = false →
      comparePassword E u body.password = false) ∧
    (loginErrors E body = [] → io.find = false →
      User.findOne E s.users (E.normalizeEmail body.email) = some u →
      comparePassword E u body.password = false →
      login E io now s body = ⟨s, .message 400 "Invalid credentials", none⟩) ∧
    (loginErrors E body ≠ [] →
      login E io now s body = ⟨s, .errors 400 (loginErrors E body), none⟩) := by
  refine ⟨?_, ?_, ?_, ?_⟩
  · intro hp pw
    simp [comparePassword, hp]
  · intro stored hp hc
    simp [comparePassword, hp, hc]
  · intro hvalid hio hu hm
    simp [login, hvalid, hio, hu, hm]
  · intro hbad
    simp [login, hbad]

/-- Instance of C9, amended: the account without password, any non-empty
password. -/
theorem login_unverified_invalid_credentials_witness :
    login sampleExternals Faults.none 50 sampleAuthStore ⟨"s@x.io", "secret1", none⟩ =
      ⟨sampleAuthStore, .message 400 "Invalid credentials", none⟩ :=
  (login_unverified_invalid_credentials sampleExternals Faults.none 50 sampleAuthStore
    ⟨"s@x.io", "secret1", none⟩
    ({ sampleUser "u2" "s@x.io" none with
        socialLogin := ⟨some "google", some "g-42"⟩, isVerified := true })).2.2.1
    (by decide) rfl (by decide) (by decide)

/-- C10, as stated, fails: the password of "a@x.io" verifies, the request
supplies the role "admin", which the schema's enum rejects on save; the
handler answers 500 "Server error", issues no token, and the stored user keeps
its role and its (absent) last-login date.  And when the request supplies the
empty string as role, the login succeeds with the stored role "filmmaker"
kept, in the document and in the token. -/
theorem login_role_outside_enum_rejected :
    (User.findOne sampleExternals sampleAuthStore.users
        (sampleExternals.normalizeEmail "a@x.io")).map
      (fun u => comparePassword sampleExternals u "secret1") = some true ∧
    login sampleExternals Faults.none 50 sampleAuthStore ⟨"a@x.io", "secret1", some "admin"⟩ =
      ⟨sampleAuthStore, .message 500 "Server error", none⟩ ∧
    (login sampleExternals Faults.none 50 sampleAuthStore ⟨"a@x.io", "secret1", some ""⟩).reply =
      .granted 200 "Login successful" ⟨"u1", "filmmaker", "7d"⟩
        ⟨"u1", "User A", "a@x.io", "filmmaker", none, some ⟨0, 0, 0, 0⟩⟩ := by
  decide

/-- C10, amended: for a login that passes the validation chain, finds user
`u`, whose password verifies, whose updated document passes the schema
validation of `save` and whose store calls succeed: the document written back
is `u` with `lastLogin` set to now and `userType` set to the supplied role when
one is supplied (non-empty), every other field, the password hash included,
being as stored; it replaces `u` in the store; and the answer is 200 with a
token whose claims are `u`'s id and the role after the correction, expiring
in 7 days. -/
theorem login_success_frame (E : Externals) (io : Faults) (now : Date) (s : Store)
    (body : LoginBody) (u : User) (hvalid : loginErrors E body = [])
    (hf : io.find = false) (hs : io.save = false)
    (hu : User.findOne E s.users (E.normalizeEmail body.email) = some u)
    (hm : comparePassword E u body.password = true)
    (hv : User.validate (loginUpdate now body.userType u) = true) :
    loginUpdate now body.userType u =
      { u with
        userType := if truthy body.userType then body.userType.getD u.userType else u.userType
        lastLogin := some now } ∧
    login E io now s body =
      ⟨{ s with users := User.update s.users (loginUpdate now body.userType u) },
        .granted 200 "Login successful"
          ⟨u._id, (loginUpdate now body.userType u).userType, "7d"⟩
          ⟨u._id, u.name, u.email, (loginUpdate now body.userType u).userType, u.avatar,
            some u.stats⟩,
        some ⟨u._id, (loginUpdate now body.userType u).userType⟩⟩ ∧
    (User.findById s.users u._id = some u →
      User.findById (login E io now s body).store.users u._id =
        some (loginUpdate now body.userType u)) := by
  have hshape : loginUpdate now body.userType u =
      { u with
        userType := if truthy body.userType then body.userType.getD u.userType else u.userType
        lastLogin := some now } := by
    unfold loginUpdate truthy
    cases hb : body.userType with
    | none => simp
    | some t =>
      by_cases ht : t = ""
      · simp [ht]
      · by_cases hne : u.userType = t
        · simp [ht, hne]
        · simp [ht, hne]
  have hid : (loginUpdate now body.userType u)._id = u._id := by rw [hshape]
  have hname : (loginUpdate now body.userType u).name = u.name := by rw [hshape]
  have hemail : (loginUpdate now body.userType u).email = u.email := by rw [hshape]
  have havatar : (loginUpdate now body.userType u).avatar = u.avatar := by rw [hshape]
  have hstats : (loginUpdate now body.userType u).stats = u.stats := by rw [hshape]
  have hlogin : login E io now s body =
      ⟨{ s with users := User.update s.users (loginUpdate now body.userType u) },
        .granted 200 "Login successful"
          ⟨u._id, (loginUpdate now body.userType u).userType, "7d"⟩
          ⟨u._id, u.name, u.email, (loginUpdate now body.userType u).userType, u.avatar,
            some u.stats⟩,
        some ⟨u._id, (loginUpdate now body.userType u).userType⟩⟩ := by
    simp [login, hvalid, hf, hs, hu, hm, hv, preSave_false, hid, hname, hemail, havatar, hstats]
  refine ⟨hshape, hlogin, ?_⟩
  intro hfind
  rw [hlogin]
  exact user_findById_update hfind hid

/-- Instance of C10, amended: "a@x.io" logs in as "mentor". -/
theorem login_success_frame_witness :
    User.findById (login sampleExternals Faults.none 50 sampleAuthStore
        ⟨"a@x.io", "secret1", some "mentor"⟩).store.users "u1" =
      some { sampleUser "u1" "a@x.io" (some "$2a$10$secret1") with
        userType := "mentor", lastLogin := some 50 } :=
  (login_success_frame sampleExternals Faults.none 50 sampleAuthStore
    ⟨"a@x.io", "secret1", some "mentor"⟩ (sampleUser "u1" "a@x.io" (some "$2a$10$secret1"))
    (by decide) rfl rfl (by decide) (by decide) (by decide)).2.2 (by decide)

/-! ## Social login -/

theorem user_create_of_findOne_none (E : Externals) (users : List User) (u : User)
    (email : String) (hnone : User.findOne E users email = none)
    (hu : u.email = emailSetter E email) : User.create users u = some (users ++ [u]) := by
  unfold User.create
  have hall := List.find?_eq_none.1 hnone
  have hany : users.any (fun d => d.email == u.email) = false := by
    rw [List.any_eq_false]
    intro d hd
    have := hall d hd
    rw [hu]
    simpa using this
  simp [hany]

theorem user_update_length (users : List User) (u : User) :
    (User.update users u).length = users.length := by
  induction users with
  | nil => rfl
  | cons d ds ih =>
    by_cases hd : d._id = u._id
    · simp [User.update, hd]
    · simp [User.update, hd, ih]

theorem socialUpdate_id (now : Date) (t : Option String) (u : User) :
    (socialUpdate now t u)._id = u._id ∧ (socialUpdate now t u).name = u.name ∧
      (socialUpdate now t u).email = u.email := by
  unfold socialUpdate
  cases t with
  | none => exact ⟨rfl, rfl, rfl⟩
  | some v =>
    by_cases hv : v = ""
    · simp [hv]
    · simp [hv]

/-- C11, as stated, fails.  (1) A request for a new e-mail that gives no name
is rejected by the schema on save: 500 "Server error", no user created, no
token.  (2) A request for the existing e-mail "a@x.io" that supplies the role
"admin" is rejected likewise: no token is issued.  (3) A request for the new
e-mail "N@x.io" creates a user whose e-mail is "n@x.io". -/
theorem socialLogin_rejected_by_schema :
    socialLogin sampleExternals Faults.none 70 "u9" sampleAuthStore
        ⟨some "n@x.io", none, some "google", some "g1", none⟩ =
      ⟨sampleAuthStore, .message 500 "Server error", none⟩ ∧
    socialLogin sampleExternals Faults.none 70 "u9" sampleAuthStore
        ⟨some "a@x.io", some "User A", some "google", some "g1", some "admin"⟩ =
      ⟨sampleAuthStore, .message 500 "Server error", none⟩ ∧
    ((socialLogin sampleExternals Faults.none 70 "u9" sampleAuthStore
        ⟨some "N@x.io", some "Nora", some "google", some "g1", none⟩).store.users.map
      (fun u => u.email)) = ["a@x.io", "s@x.io", "n@x.io"] := by
  decide

/-- C11, amended: for a social-login request that gives an e-mail, the store
calls succeeding.  If `User.findOne` finds a user `u` for the e-mail and `u`
with `lastLogin` (and the supplied role, if any) updated passes the schema
validation of `save`, no user is created: the user list keeps its length, `u`
is written back updated, and the token's `userId` is `u`'s id.  If no user is
found and the new document passes the schema validation (name and e-mail not
empty, provider given, role in the enum), exactly one user is appended to the
user list, with the stored form of the e-mail, no password, `isVerified` true
and `userType` the supplied role or 'filmmaker' when none (or an empty one) is
supplied, and the token's `userId` is the new user's id. -/
theorem socialLogin_creates_or_finds (E : Externals) (io : Faults) (now : Date)
    (freshId : ObjectId) (s : Store) (body : SocialBody) (email : String)
    (hf : io.find = false) (hs : io.save = false) (he : body.email = some email) :
    (∀ u, User.findOne E s.users email = some u →
      User.validate (socialUpdate now body.userType u) = true →
      socialLogin E io now freshId s body =
        ⟨{ s with users := User.update s.users (socialUpdate now body.userType u) },
          .granted 200 "Social login successful"
            ⟨u._id, (socialUpdate now body.userType u).userType, "7d"⟩
            ⟨u._id, u.name, u.email, (socialUpdate now body.userType u).userType, none, none⟩,
          some ⟨u._id, (socialUpdate now body.userType u).userType⟩⟩ ∧
      (User.update s.users (socialUpdate now body.userType u)).length = s.users.length) ∧
    (User.findOne E s.users email = none →
      User.validate (newSocialUser E now freshId body) = true →
      socialLogin E io now freshId s body =
        ⟨{ s with users := s.users ++ [newSocialUser E now freshId body] },
          .granted 200 "Social login successful"
            ⟨freshId, userTypeOrDefault body.userType, "7d"⟩
            ⟨freshId, (newSocialUser E now freshId body).name, emailSetter E email,
              userTypeOrDefault body.userType, none, none⟩,
          some ⟨freshId, userTypeOrDefault body.userType⟩⟩ ∧
      (newSocialUser E now freshId body)._id = freshId ∧
      (newSocialUser E now freshId body).email = emailSetter E email ∧
      (newSocialUser E now freshId body).password = none ∧
      (newSocialUser E now freshId body).isVerified = true ∧
      (newSocialUser E now freshId body).userType = userTypeOrDefault body.userType ∧
      (∀ t, body.userType = some t → t ≠ "" → userTypeOrDefault body.userType = t) ∧
      (body.userType = none → userTypeOrDefault body.userType = "filmmaker")) := by
  have hemail : (newSocialUser E now freshId body).email = emailSetter E email := by
    simp [newSocialUser, he]
  refine ⟨?_, ?_⟩
  · intro u hu hv
    obtain ⟨hid, hname, hmail⟩ := socialUpdate_id now body.userType u
    refine ⟨?_, user_update_length _ _⟩
    simp [socialLogin, hf, hs, he, hu, hv, preSave_false, hid, hname, hmail]
  · intro hnone hv
    have hcreate := user_create_of_findOne_none E s.users (newSocialUser E now freshId body) email
      hnone hemail
    refine ⟨?_, rfl, hemail, rfl, rfl, rfl, ?_, ?_⟩
    · simp only [socialLogin, hf, hs, he, hnone, hv, preSave_false, hcreate]
      simp [newSocialUser, he]
    · intro t ht hne
      simp [userTypeOrDefault, ht, hne]
    · intro ht
      simp [userTypeOrDefault, ht]

/-- Instance of C11, amended: "Nora" signs in through a provider with a new
e-mail and no role. -/
theorem socialLogin_creates_or_finds_witness :
    (socialLogin sampleExternals Faults.none 70 "u9" sampleAuthStore
        ⟨some "nora@x.io", some "Nora", some "google", some "g1", none⟩).reply =
      .granted 200 "Social login successful" ⟨"u9", "filmmaker", "7d"⟩
        ⟨"u9", "Nora", "nora@x.io", "filmmaker", none, none⟩ := by
  have h := (socialLogin_creates_or_finds sampleExternals Faults.none 70 "u9" sampleAuthStore
    ⟨some "nora@x.io", some "Nora", some "google", some "g1", none⟩ "nora@x.io" rfl rfl rfl).2
    (by decide) (by decide)
  rw [h.1]
  decide

/-! ## The list routes -/

theorem opportunityMatches_eq (toUpperCase : String → String) (type : Option String)
    (o : Opportunity) :
    opportunityMatches (opportunityTypeQuery toUpperCase type) o =
      (o.isActive && (type == none || type == some "" || type == some "All" ||
        o.type == toUpperCase (type.getD ""))) := by
  unfold opportunityMatches opportunityTypeQuery
  cases type with
  | none => simp
  | some t =>
    by_cases h1 : t = ""
    · simp [h1]
    · by_cases h2 : t = "All"
      · simp [h2]
      · have e1 : (t == "") = false := by simpa using h1
        have e2 : (t == "All") = false := by simpa using h2
        simp [h1, h2, e1, e2]

/-- C12, as stated, fails: with the parameter present and empty (`?type=`)
the handler returns every active opportunity, here "o3" and "o1", although no
opportunity has the type obtained by upper-casing the parameter. -/
theorem getOpportunities_empty_type_unfiltered :
    getOpportunities asciiUpper Faults.none sampleListing (some "") =
      .items [{ sampleOpportunity "o3" 100 [] with type := "JOB" },
        { sampleOpportunity "o1" 300 [] with type := "GRANT" }] ∧
    sampleListing.opportunities.filter (fun o => o.isActive && o.type == asciiUpper "") = [] := by
  decide

/-- C12, amended: when the lookup does not fail, `GET /opportunities` answers
with a list that holds exactly (as a rearrangement) the stored opportunities
with `isActive` true whose type equals the upper-cased parameter, or all
active opportunities when the parameter is absent, empty or 'All'; the list is
in non-decreasing order of deadline. -/
theorem getOpportunities_active_filtered_sorted (toUpperCase : String → String) (io : Faults)
    (s : Store) (type : Option String) (hf : io.find = false) :
    ∃ l, getOpportunities toUpperCase io s type = .items l ∧
      l.Perm (s.opportunities.filter (fun o => o.isActive &&
        (type == none || type == some "" || type == some "All" ||
          o.type == toUpperCase (type.getD "")))) ∧
      List.Sorted (fun a b : Opportunity => a.deadline ≤ b.deadline) l := by
  haveI : IsTotal Opportunity (fun a b => a.deadline ≤ b.deadline) :=
    ⟨fun a b => le_total a.deadline b.deadline⟩
  haveI : IsTrans Opportunity (fun a b => a.deadline ≤ b.deadline) :=
    ⟨fun a b c hab hbc => le_trans hab hbc⟩
  refine ⟨List.insertionSort (fun a b : Opportunity => a.deadline ≤ b.deadline)
    (s.opportunities.filter (opportunityMatches (opportunityTypeQuery toUpperCase type))),
    by simp [getOpportunities, hf], ?_, List.sorted_insertionSort _ _⟩
  have hfilter : s.opportunities.filter (opportunityMatches (opportunityTypeQuery toUpperCase type)) =
      s.opportunities.filter (fun o => o.isActive &&
        (type == none || type == some "" || type == some "All" ||
          o.type == toUpperCase (type.getD ""))) := by
    congr 1
    funext o
    exact opportunityMatches_eq toUpperCase type o
  rw [← hfilter]
  exact List.perm_insertionSort _ _

/-- Instance of C12, amended: the active jobs of the sample listing. -/
theorem getOpportunities_active_filtered_sorted_witness :
    ∃ l, getOpportunities asciiUpper Faults.none sampleListing (some "job") = .items l ∧
      l.Perm (sampleListing.opportunities.filter (fun o => o.isActive &&
        ((some "job" : Option String) == none || (some "job" : Option String) == some "" ||
          (some "job" : Option String) == some "All" ||
          o.type == asciiUpper ((some "job" : Option String).getD "")))) ∧
      List.Sorted (fun a b : Opportunity => a.deadline ≤ b.deadline) l :=
  getOpportunities_active_filtered_sorted asciiUpper Faults.none sampleListing (some "job") rfl

/-- What `GET /courses` does with a search string alone: it answers with the
courses whose title or description the pattern matches, as the regular
expression engine decides. -/
theorem getCourses_search_members (toUpperCase : String → String) (R : RegexEngine)
    (io : Faults) (s : Store) (q : String) (hf : io.find = false) (hq : q ≠ "")
    (hvalid : R.valid q = true) :
    ∃ l, getCourses toUpperCase R io s none none (some q) = .items l ∧
      ∀ c, c ∈ l ↔ c ∈ s.courses ∧ (R.test q c.title = true ∨ R.test q c.description = true) := by
  refine ⟨List.insertionSort (fun a b : Course => b.createdAt ≤ a.createdAt)
    (s.courses.filter (courseMatches R ⟨none, none, some q⟩)), ?_, ?_⟩
  · simp [getCourses, courseQuery, hf, hq, hvalid]
  · intro c
    rw [(List.perm_insertionSort _ _).mem_iff]
    simp [courseMatches, List.mem_filter]

/-- C13 fails on the code (failing input: search "."): the search string is
handed to `$regex` as a pattern, so "." matches any character and every sample
course is returned although "." occurs in no title and no description; and
the string "(" is no well-formed pattern, which makes the handler answer 500. -/
theorem getCourses_search_is_pattern :
    getCourses asciiUpper sampleRegex Faults.none sampleCourses none none (some ".") =
      .items sampleCourses.courses ∧
    sampleCourses.courses.filter
      (fun c => occursIgnoringCase "." c.title || occursIgnoringCase "." c.description) = [] ∧
    getCourses asciiUpper sampleRegex Faults.none sampleCourses none none (some "(") =
      .error 500 "Error fetching courses" := by
  decide

/-- The level condition is never put for a level of the schema. -/
theorem courseQuery_level_dropped (toUpperCase : String → String) (level : String)
    (h : level ∈ courseLevels) :
    courseQuery toUpperCase none (some level) none = ⟨none, none, none⟩ := by
  simp only [courseLevels, List.mem_cons, List.mem_singleton, List.not_mem_nil, or_false] at h
  rcases h with rfl | rfl | rfl <;> simp [courseQuery]

/-- C18 fails on the code (failing input: level "Beginner"): the level
condition is put only for a level outside the list ['All Courses',
'Beginner', 'Intermediate', 'Advanced'], so the request returns all three
sample courses, the advanced and the intermediate one included. -/
theorem getCourses_level_not_applied :
    getCourses asciiUpper sampleRegex Faults.none sampleCourses none (some "Beginner") none =
      .items sampleCourses.courses ∧
    sampleCourses.courses.map (fun c => c.level) = ["Advanced", "Beginner", "Intermediate"] := by
  decide

/-- Whatever the letter case of the parameter, a category that upper-cases to
'SOUND DESIGN' is looked up as 'SOUND_DESIGN'. -/
theorem categoryFilter_sound_design (toUpperCase : String → String) (category : String)
    (h : toUpperCase category = "SOUND DESIGN") :
    categoryFilter toUpperCase category = "SOUND_DESIGN" := by
  unfold categoryFilter
  rw [h]
  decide

/-- C20 fails on the code (failing input: category "Sound Design"): 'SOUND
DESIGN' is a value of the schema's enum, the filter value computed for the
parameter is 'SOUND_DESIGN', which is no value of the enum, and the request
returns no course although the sample store holds one of category 'SOUND
DESIGN'. -/
theorem getCourses_category_with_blank :
    "SOUND DESIGN" ∈ courseCategories ∧
    categoryFilter asciiUpper "Sound Design" = "SOUND_DESIGN" ∧
    "SOUND_DESIGN" ∉ courseCategories ∧
    getCourses asciiUpper sampleRegex Faults.none sampleCourses (some "Sound Design") none none =
      .items [] ∧
    (sampleCourses.courses.filter (fun c => c.category == "SOUND DESIGN")).map (fun c => c._id) =
      ["c2"] := by
  decide

/-! ## Partial failure and interleaving of enroll -/

/-- C14: an actor with no enrollment record in the course found under `id`
enrolls; the read and the course write succeed and the user update fails.  The
handler answers 500 "Error enrolling in course"; the stored course holds the
previous records followed by the new one for the actor; the user collection
is exactly as before, and in a store where every course listed in a profile
holds a record of that user, the actor's enrolled-course list does not contain
the course. -/
theorem enroll_update_failure_not_rolled_back (io : Faults) (now : Date) (s : Store)
    (id userId : ObjectId) (c : Course) (hf : io.find = false) (hs : io.save = false)
    (hup : io.update = true) (hc : Course.findById s.courses id = some c)
    (hu : ∀ e ∈ c.enrolledStudents, e.user ≠ userId) :
    (enroll io now s id userId).2 = ⟨500, "Error enrolling in course", none⟩ ∧
    Course.findById (enroll io now s id userId).1.courses id =
      some { c with enrolledStudents := c.enrolledStudents ++ [newEnrollment now userId] } ∧
    (enroll io now s id userId).1.users = s.users ∧
    (profileConsistent s = true →
      ∀ u ∈ (enroll io now s id userId).1.users, u._id = userId → id ∉ u.enrolledCourses) := by
  have hid := course_findById_id hc
  have hrun : enroll io now s id userId =
      ({ s with
          courses := Course.save s.courses
            { c with enrolledStudents := c.enrolledStudents ++ [newEnrollment now userId] } },
        ⟨500, "Error enrolling in course", none⟩) := by
    simp [enroll, hf, hs, hup, hc, any_user_eq_false hu]
  rw [hrun]
  refine ⟨rfl, course_findById_save hc hid, rfl, ?_⟩
  intro hcons u hmem huid hin
  simp only [profileConsistent, List.all_eq_true] at hcons
  have h1 := hcons u hmem id hin
  rw [hc] at h1
  simp only [List.any_eq_true, beq_iff_eq] at h1
  obtain ⟨e, he, heq⟩ := h1
  exact hu e he (heq.trans huid)

/-- Instance of C14: "u1" enrolls in "c1" and the user update fails. -/
theorem enroll_update_failure_not_rolled_back_witness :
    (enroll ⟨false, false, true⟩ 10 sampleStore "c1" "u1").2 =
      ⟨500, "Error enrolling in course", none⟩ ∧
    (enroll ⟨false, false, true⟩ 10 sampleStore "c1" "u1").1.users = sampleStore.users :=
  have h := enroll_update_failure_not_rolled_back ⟨false, false, true⟩ 10 sampleStore "c1" "u1"
    (sampleCourse "c1" []) rfl rfl rfl (by decide) (by simp [sampleCourse])
  ⟨h.1, h.2.2.1⟩

theorem course_findById_pushStored {cs : List Course} {id : ObjectId} {c : Course}
    (e : Enrollment) (h : Course.findById cs id = some c) :
    Course.findById (Course.pushStored cs id e) id =
      some { c with enrolledStudents := c.enrolledStudents ++ [e] } := by
  induction cs with
  | nil => simp [Course.findById] at h
  | cons d ds ih =>
    unfold Course.findById at h ih ⊢
    by_cases hd : d._id = id
    · have hp : (d._id == id) = true := by simpa using hd
      simp only [List.find?_cons, hp, Option.some.injEq] at h
      subst h
      simp [Course.pushStored, hd]
    · have hn : (d._id == id) = false := by simpa using hd
      simp only [List.find?_cons, hn] at h
      simp only [Course.pushStored, hn, Bool.false_eq_true, if_false, List.find?_cons]
      exact ih h

/-- In a run that is not interleaved with another, the write of the change
is the replacement of the stored document by the in-memory one. -/
theorem course_pushStored_eq_save {cs : List Course} {id : ObjectId} {c : Course}
    (e : Enrollment) (h : Course.findById cs id = some c) :
    Course.pushStored cs id e =
      Course.save cs { c with enrolledStudents := c.enrolledStudents ++ [e] } := by
  have hid := course_findById_id h
  induction cs with
  | nil => rfl
  | cons d ds ih =>
    unfold Course.findById at h ih
    by_cases hd : d._id = id
    · have hp : (d._id == id) = true := by simpa using hd
      simp only [List.find?_cons, hp, Option.some.injEq] at h
      subst h
      simp [Course.pushStored, Course.save, hd]
    · have hn : (d._id == id) = false := by simpa using hd
      simp only [List.find?_cons, hn] at h
      have hd1 : ¬ d._id = c._id := by rw [hid]; exact hd
      simp only [Course.pushStored, Course.save, hn, Bool.false_eq_true, if_false, beq_iff_eq, hd1]
      rw [ih h]

/-- One request run alone through its four steps does what `enroll` does. -/
theorem enrollStep_alone_eq_enroll (now : Date) (s : Store) (id userId : ObjectId) (c : Course)
    (hc : Course.findById s.courses id = some c)
    (hu : ∀ e ∈ c.enrolledStudents, e.user ≠ userId) :
    interleave now now id userId ⟨s, .start, .start⟩ [false, false, false, false] =
      ⟨(enroll Faults.none now s id userId).1,
        .answered (enroll Faults.none now s id userId).2, .start⟩ := by
  have hid := course_findById_id hc
  rw [enroll_fresh now s id userId c hc hu]
  simp [interleave, enrollStep, hc, any_user_eq_false hu, course_pushStored_eq_save _ hc, hid]

/-- The alternating schedule up to the point where both requests have
passed the duplicate check. -/
theorem interleave_checks (now1 now2 : Date) (s : Store) (id userId : ObjectId) (c : Course)
    (hc : Course.findById s.courses id = some c)
    (hu : ∀ e ∈ c.enrolledStudents, e.user ≠ userId) :
    interleave now1 now2 id userId ⟨s, .start, .start⟩ [false, true, false, true] =
      ⟨s, .saving { c with enrolledStudents := c.enrolledStudents ++ [newEnrollment now1 userId] },
        .saving { c with enrolledStudents := c.enrolledStudents ++ [newEnrollment now2 userId] }⟩ := by
  simp [interleave, enrollStep, hc, any_user_eq_false hu]

/-- The alternating schedule run to the end. -/
theorem interleave_alternating (now1 now2 : Date) (s : Store) (id userId : ObjectId) (c : Course)
    (hc : Course.findById s.courses id = some c)
    (hu : ∀ e ∈ c.enrolledStudents, e.user ≠ userId) :
    interleave now1 now2 id userId ⟨s, .start, .start⟩
        ([false, true, false, true] ++ [false, true, false, true]) =
      ⟨{ s with
          courses := Course.pushStored
            (Course.pushStored s.courses id (newEnrollment now1 userId)) id
            (newEnrollment now2 userId)
          users := User.findByIdAndUpdate_push
            (User.findByIdAndUpdate_push s.users userId id) userId id },
        .answered ⟨200, "Enrolled successfully",
          some { c with enrolledStudents := c.enrolledStudents ++ [newEnrollment now1 userId] }⟩,
        .answered ⟨200, "Enrolled successfully",
          some { c with enrolledStudents := c.enrolledStudents ++ [newEnrollment now2 userId] }⟩⟩ := by
  have hid := course_findById_id hc
  simp [interleave, enrollStep, hc, any_user_eq_false hu, hid]

/-- C15: for a course found under `id` in which the actor has no enrollment
record, two enroll requests for that course and actor have an interleaving
(first and second request alternating) in which both have passed the duplicate
check while the store is still untouched, both then write and answer 200, and
the stored course ends with the previous records followed by two records of
the actor. -/
theorem enroll_race_two_records (now1 now2 : Date) (s : Store) (id userId : ObjectId) (c : Course)
    (hc : Course.findById s.courses id = some c)
    (hu : ∀ e ∈ c.enrolledStudents, e.user ≠ userId) :
    ∃ checks writes : List Bool,
      (∃ c1 c2, interleave now1 now2 id userId ⟨s, .start, .start⟩ checks =
        ⟨s, .saving c1, .saving c2⟩) ∧
      ∃ st r1 r2 c3, interleave now1 now2 id userId ⟨s, .start, .start⟩ (checks ++ writes) =
          ⟨st, .answered r1, .answered r2⟩ ∧
        r1.status = 200 ∧ r2.status = 200 ∧
        Course.findById st.courses id = some c3 ∧
        c3.enrolledStudents =
          c.enrolledStudents ++ [newEnrollment now1 userId, newEnrollment now2 userId] ∧
        (c3.enrolledStudents.filter (fun e => e.user == userId)).length = 2 := by
  have h1 := course_findById_pushStored (newEnrollment now1 userId) hc
  have h2 := course_findById_pushStored (newEnrollment now2 userId) h1
  have h0 : c.enrolledStudents.filter (fun e => e.user == userId) = [] := by
    rw [List.filter_eq_nil_iff]
    intro e he
    simpa using hu e he
  refine ⟨[false, true, false, true], [false, true, false, true],
    ⟨_, _, interleave_checks now1 now2 s id userId c hc hu⟩,
    _, _, _, _, interleave_alternating now1 now2 s id userId c hc hu, rfl, rfl, h2, ?_, ?_⟩
  · simp
  · simp [List.filter_append, h0, newEnrollment]

/-- Instance of C15: two requests of "u1" for the empty course "c1". -/
theorem enroll_race_two_records_witness :
    ∃ checks writes : List Bool,
      (∃ c1 c2, interleave 10 11 "c1" "u1" ⟨sampleStore, .start, .start⟩ checks =
        ⟨sampleStore, .saving c1, .saving c2⟩) ∧
      ∃ st r1 r2 c3, interleave 10 11 "c1" "u1" ⟨sampleStore, .start, .start⟩ (checks ++ writes) =
          ⟨st, .answered r1, .answered r2⟩ ∧
        r1.status = 200 ∧ r2.status = 200 ∧
        Course.findById st.courses "c1" = some c3 ∧
        c3.enrolledStudents =
          (sampleCourse "c1" []).enrolledStudents ++ [newEnrollment 10 "u1", newEnrollment 11 "u1"] ∧
        (c3.enrolledStudents.filter (fun e => e.user == "u1")).length = 2 :=
  enroll_race_two_records 10 11 sampleStore "c1" "u1" (sampleCourse "c1" []) (by decide)
    (by simp [sampleCourse])

/-! ## Mentorship -/

/-- C16: a mentorship created without a status has status 'pending', and a
session can be appended to it; appending a session to a pending or active
mentorship succeeds; and whenever an append succeeds, the result has the same
status, mentor, mentee and messages (and every other field), its session list
is the previous one followed by the new record, and the new record has
`completed` false when the input gives no value. -/
theorem mentorship_pending_and_session_frame (now : Date) (freshId : ObjectId)
    (input : MentorshipInput) (m : Mentorship) (sess : SessionInput) :
    (input.status = none → (Mentorship.new now freshId input).status = "pending") ∧
    (input.status = none →
      appendSession (Mentorship.new now freshId input) sess =
        some { Mentorship.new now freshId input with sessions := [newSession sess] }) ∧
    (m.status = "pending" ∨ m.status = "active" →
      appendSession m sess = some { m with sessions := m.sessions ++ [newSession sess] }) ∧
    (∀ m1, appendSession m sess = some m1 →
      m1.status = m.status ∧ m1.mentor = m.mentor ∧ m1.mentee = m.mentee ∧
      m1.messages = m.messages ∧ m1 = { m with sessions := m.sessions ++ [newSession sess] }) ∧
    (sess.completed = none → (newSession sess).completed = false) := by
  refine ⟨?_, ?_, ?_, ?_, ?_⟩
  · intro h
    simp [Mentorship.new, h]
  · intro h
    simp [appendSession, Mentorship.new, h]
  · intro h
    rcases h with h | h <;> simp [appendSession, h]
  · intro m1 h
    unfold appendSession at h
    split at h
    · cases h
      exact ⟨rfl, rfl, rfl, rfl, rfl⟩
    · cases h
  · intro h
    simp [newSession, h]

/-- Instance of C16: a session without `completed` appended to a mentorship
created without status. -/
theorem mentorship_pending_and_session_frame_witness :
    (appendSession (Mentorship.new 5 "m1" ⟨"u1", "u2", none, [], none, none, none⟩)
        ⟨some "Intro", some 99, some 60, none, none, none⟩).map
      (fun m => (m.status, m.sessions.map (fun x => x.completed))) = some ("pending", [false]) := by
  rw [(mentorship_pending_and_session_frame 5 "m1" ⟨"u1", "u2", none, [], none, none, none⟩
    (Mentorship.new 5 "m1" ⟨"u1", "u2", none, [], none, none, none⟩)
    ⟨some "Intro", some 99, some 60, none, none, none⟩).2.1 rfl]
  rfl

/-! ## Browser helpers -/

/-- On a page that is no authentication page, every request that fails with
a token error schedules a redirect, whatever the value of `isRedirectingAuth`:
`clearAuth` has reset the flag before it is tested. -/
theorem handleError_always_schedules (b : Browser) (message : String)
    (hm : (includes message "Token is invalid" || includes message "Token is missing") = true)
    (hp : (includes b.pathname "authentication.html" || includes b.pathname "signin.html") = false)
    (hr : includes b.href "redirecting" = false) :
    (handleError b message).scheduled = b.scheduled ++ ["authentication.html"] ∧
    (handleError b message).isRedirectingAuth = true := by
  unfold handleError
  rw [if_pos hm]
  simp only [clearAuth]
  simp [hp, hr]

/-- C17 fails on the code (failing input: on `index.html`, two requests in a
row answered 401 with the message "Token is invalid"): after the first request
`isRedirectingAuth` is set and one redirect is scheduled; the second request
schedules a second redirect, because `clearAuth`, called first in the handling
of the error, resets `isRedirectingAuth`. -/
theorem request_schedules_redirect_again :
    (request sampleBrowser (.notOk (some "Token is invalid") "HTTP 401: Unauthorized")).1.scheduled =
      ["authentication.html"] ∧
    (request sampleBrowser
      (.notOk (some "Token is invalid") "HTTP 401: Unauthorized")).1.isRedirectingAuth = true ∧
    (requestAll sampleBrowser
      [.notOk (some "Token is invalid") "HTTP 401: Unauthorized",
        .notOk (some "Token is invalid") "HTTP 401: Unauthorized"]).scheduled =
      ["authentication.html", "authentication.html"] := by
  decide

/-- C19 fails on the code (failing input: the entries `tag = ""` then
`tag = "b"`): the key occurs twice with the values "" and "b", and the object
built maps it to the single value "b"; the empty first value, being falsy, is
overwritten instead of starting an array.  The same loss happens before a third
value. -/
theorem getFormData_drops_empty_value :
    valuesOf [("tag", .text ""), ("tag", .text "b")] "tag" = [.text "", .text "b"] ∧
    getFormData [("tag", .text ""), ("tag", .text "b")] = [("tag", .single (.text "b"))] ∧
    getFormData [("tag", .text ""), ("tag", .text "b"), ("tag", .text "c")] =
      [("tag", .array [.text "b", .text "c"])] := by
  decide

theorem lookupKey_assignKey (data : List (String × DataValue)) (key key1 : String)
    (v : DataValue) :
    lookupKey (assignKey data key v) key1 = if key1 = key then some v else lookupKey data key1 := by
  induction data with
  | nil =>
    by_cases h : key1 = key
    · simp [assignKey, lookupKey, h]
    · have h1 : ¬ key = key1 := fun e => h e.symm
      simp [assignKey, lookupKey, h, h1]
  | cons p ps ih =>
    unfold lookupKey at ih ⊢
    by_cases hp : p.1 = key
    · by_cases h : key1 = key
      · simp [assignKey, hp, h]
      · have h1 : ¬ key = key1 := fun e => h e.symm
        simp [assignKey, hp, h, h1, List.find?_cons]
    · by_cases h1 : p.1 = key1
      · have h : ¬ key1 = key := fun e => hp (h1.trans e)
        simp [assignKey, hp, h, h1, List.find?_cons]
      · have hb : (p.1 == key1) = false := by simpa using h1
        simp only [assignKey, beq_iff_eq, hp, if_false, List.find?_cons, hb]
        exact ih

theorem valuesOf_append (l : List (String × FormValue)) (a : String × FormValue) (key : String) :
    valuesOf (l ++ [a]) key = valuesOf l key ++ (if a.1 = key then [a.2] else []) := by
  unfold valuesOf
  by_cases h : a.1 = key
  · simp [List.filter_append, h]
  · simp [List.filter_append, h]

/-- Where `getFormData` is right: when the first value of every key is not
the empty string, each key maps to its only value, or to the array of all its
values in entry order. -/
theorem getFormData_grouped (entries : List (String × FormValue))
    (h : ∀ key, (valuesOf entries key).head? ≠ some (.text "")) (key : String) :
    lookupKey (getFormData entries) key = groupedValue (valuesOf entries key) := by
  induction entries using List.reverseRecOn generalizing key with
  | nil => rfl
  | append_singleton l a ih =>
    have hl : ∀ k, (valuesOf l k).head? ≠ some (.text "") := by
      intro k hk
      apply h k
      rw [valuesOf_append]
      cases hv : valuesOf l k with
      | nil => rw [hv] at hk; simp at hk
      | cons v vs => rw [hv] at hk; simpa using hk
    have ihl := fun k => ih hl k
    have hstep : getFormData (l ++ [a]) = formStep (getFormData l) a := by
      simp [getFormData, List.foldl_append]
    rw [hstep, valuesOf_append]
    have iha := ihl a.1
    by_cases hk : a.1 = key
    · subst hk
      simp only [if_true]
      unfold formStep
      cases hv : valuesOf l a.1 with
      | nil =>
        rw [hv] at iha
        simp only [groupedValue] at iha
        rw [iha]
        simp [DataValue.truthy, lookupKey_assignKey, groupedValue]
      | cons v vs =>
        rw [hv] at iha
        cases vs with
        | nil =>
          simp only [groupedValue] at iha
          rw [iha]
          have hne : v ≠ .text "" := by
            intro hv0
            apply hl a.1
            rw [hv, hv0]
            rfl
          have htr : DataValue.truthy (some (.single v)) = true := by
            cases v with
            | text t =>
              have : t ≠ "" := fun e => hne (by rw [e])
              simp [DataValue.truthy, this]
            | file n => rfl
          simp [htr, lookupKey_assignKey, groupedValue]
        | cons w ws =>
          simp only [groupedValue] at iha
          rw [iha]
          simp [DataValue.truthy, lookupKey_assignKey, groupedValue]
    · have hk1 : ¬ key = a.1 := fun e => hk e.symm
      simp only [hk, if_false, List.append_nil]
      rw [← ihl key]
      unfold formStep
      split
      · split
        · rw [lookupKey_assignKey]; simp [hk1]
        · rw [lookupKey_assignKey]; simp [hk1]
        · rfl
      · rw [lookupKey_assignKey]; simp [hk1]

/-! ## The profile list follows the enrollment records -/

theorem profileConsistent_iff (s : Store) :
    profileConsistent s = true ↔
      ∀ u ∈ s.users, ∀ cid ∈ u.enrolledCourses, ∀ c, Course.findById s.courses cid = some c →
        ∃ e ∈ c.enrolledStudents, e.user = u._id := by
  unfold profileConsistent
  simp only [List.all_eq_true]
  constructor
  · intro h u hu cid hcid c hc
    have := h u hu cid hcid
    rw [hc] at this
    simpa [List.any_eq_true] using this
  · intro h u hu cid hcid
    cases hc : Course.findById s.courses cid with
    | none => rfl
    | some c =>
      have := h u hu cid hcid c hc
      simpa [List.any_eq_true] using this

theorem course_findById_save_ne {cs : List Course} {id id1 : ObjectId} {c1 : Course}
    (h1 : c1._id = id) (hne : id1 ≠ id) :
    Course.findById (Course.save cs c1) id1 = Course.findById cs id1 := by
  induction cs with
  | nil => rfl
  | cons d ds ih =>
    unfold Course.findById at ih ⊢
    have hn1 : (c1._id == id1) = false := by
      rw [h1]; simpa using fun h => hne h.symm
    by_cases hd : d._id = c1._id
    · have hn2 : (d._id == id1) = false := by rw [hd]; exact hn1
      simp [Course.save, hd, List.find?_cons, hn1]
    · simp only [Course.save, beq_iff_eq, hd, if_false, List.find?_cons]
      rw [ih]

theorem user_mem_push {us : List User} {id cid : ObjectId} {u1 : User}
    (h : u1 ∈ User.findByIdAndUpdate_push us id cid) :
    u1 ∈ us ∨ ∃ u ∈ us, u._id = id ∧
      u1 = { u with enrolledCourses := u.enrolledCourses ++ [cid] } := by
  induction us with
  | nil => simp [User.findByIdAndUpdate_push] at h
  | cons d ds ih =>
    by_cases hd : d._id = id
    · have hp : (d._id == id) = true := by simpa using hd
      simp only [User.findByIdAndUpdate_push, hp, if_true, List.mem_cons] at h
      rcases h with h | h
      · exact Or.inr ⟨d, List.mem_cons_self _ _, hd, h⟩
      · exact Or.inl (List.mem_cons_of_mem _ h)
    · have hn : (d._id == id) = false := by simpa using hd
      simp only [User.findByIdAndUpdate_push, hn, Bool.false_eq_true, if_false, List.mem_cons] at h
      rcases h with h | h
      · exact Or.inl (h ▸ List.mem_cons_self _ _)
      · rcases ih h with h2 | ⟨u, hu, huid, hu1⟩
        · exact Or.inl (List.mem_cons_of_mem _ h2)
        · exact Or.inr ⟨u, List.mem_cons_of_mem _ hu, huid, hu1⟩

/-- The course write and the user update of a successful enroll keep "every
course listed in a profile holds a record of that user", also when only the
course write is done. -/
theorem consistent_after_writes (now : Date) (s : Store) (id userId : ObjectId) (c : Course)
    (users1 : List User) (hc : Course.findById s.courses id = some c)
    (hcons : profileConsistent s = true)
    (hus : users1 = s.users ∨ users1 = User.findByIdAndUpdate_push s.users userId c._id) :
    profileConsistent
      { s with
        users := users1
        courses := Course.save s.courses
          { c with enrolledStudents := c.enrolledStudents ++ [newEnrollment now userId] } } =
      true := by
  have hid := course_findById_id hc
  have hsave : Course.findById (Course.save s.courses
      { c with enrolledStudents := c.enrolledStudents ++ [newEnrollment now userId] }) id =
      some { c with enrolledStudents := c.enrolledStudents ++ [newEnrollment now userId] } :=
    course_findById_save hc hid
  have hother : ∀ cid, cid ≠ id → Course.findById (Course.save s.courses
      { c with enrolledStudents := c.enrolledStudents ++ [newEnrollment now userId] }) cid =
      Course.findById s.courses cid :=
    fun cid hk => course_findById_save_ne hid hk
  rw [profileConsistent_iff] at hcons ⊢
  intro u1 hu1 cid hcid c1 hc1
  simp only at hu1 hc1
  have hold : ∀ u ∈ s.users, cid ∈ u.enrolledCourses → ∃ e ∈ c1.enrolledStudents, e.user = u._id := by
    intro u hu hin
    by_cases hk : cid = id
    · rw [hk, hsave] at hc1
      cases hc1
      obtain ⟨e, he, heq⟩ := hcons u hu id (hk ▸ hin) c hc
      exact ⟨e, by simp [he], heq⟩
    · rw [hother cid hk] at hc1
      exact hcons u hu cid hin c1 hc1
  have hmem : u1 ∈ s.users ∨ ∃ u ∈ s.users, u._id = userId ∧
      u1 = { u with enrolledCourses := u.enrolledCourses ++ [id] } := by
    rcases hus with h | h
    · exact Or.inl (h ▸ hu1)
    · rw [hid] at h
      exact user_mem_push (h ▸ hu1)
  rcases hmem with hm | ⟨u, hu, huid, hu1eq⟩
  · exact hold u1 hm hcid
  · rw [hu1eq] at hcid ⊢
    simp only [List.mem_append, List.mem_singleton] at hcid
    rcases hcid with hin | hin
    · exact hold u hu hin
    · rw [hin, hsave] at hc1
      cases hc1
      exact ⟨newEnrollment now userId, by simp, by simp [newEnrollment, huid]⟩

/-- "Every course listed in a profile holds a record of that user" is kept
by every enroll request, whichever store call fails. -/
theorem enroll_preserves_profileConsistent (io : Faults) (now : Date) (s : Store)
    (id userId : ObjectId) (h : profileConsistent s = true) :
    profileConsistent (enroll io now s id userId).1 = true := by
  unfold enroll
  by_cases hf : io.find = true
  · rw [if_pos hf]
    exact h
  · rw [if_neg hf]
    cases hc : Course.findById s.courses id with
    | none => exact h
    | some c =>
      simp only
      by_cases ha : (c.enrolledStudents.any (fun enrollment => enrollment.user == userId)) = true
      · rw [if_pos ha]
        exact h
      · rw [if_neg ha]
        by_cases hs : io.save = true
        · rw [if_pos hs]
          exact h
        · rw [if_neg hs]
          by_cases hup : io.update = true
          · rw [if_pos hup]
            exact consistent_after_writes now s id userId c s.users hc h (Or.inl rfl)
          · rw [if_neg hup]
            exact consistent_after_writes now s id userId c _ hc h (Or.inr rfl)

/-! ## The client and the server's success answers -/

/-- The body of a success answer has no field `success`, so the client
throws with the body's message and changes nothing. -/
theorem authenticate_rejects_success_body (sign : Token → String) (stringify : UserView → String)
    (fallback : String) (b : Browser) (st : Nat) (msg : String) (t : Token) (v : UserView)
    (hmsg : msg ≠ "") :
    (successBody sign (.granted st msg t v)).map
        (fun body => CindaAPI.authenticate stringify fallback b (.data body)) =
      some (b, .thrown msg) := by
  simp [successBody, CindaAPI.authenticate, truthy, hmsg]

/-- The success answer of login is 200 "Login successful". -/
theorem login_granted_message (E : Externals) (io : Faults) (now : Date) (s : Store)
    (body : LoginBody) (st : Nat) (msg : String) (t : Token) (v : UserView)
    (h : (login E io now s body).reply = .granted st msg t v) :
    st = 200 ∧ msg = "Login successful" := by
  unfold login at h
  by_cases he : (loginErrors E body).isEmpty = true
  · simp only [he, Bool.not_true, Bool.false_eq_true, if_false] at h
    by_cases hf : io.find = true
    · simp [hf] at h
    · simp only [hf, if_false] at h
      cases hfo : User.findOne E s.users (E.normalizeEmail body.email) with
      | none => simp [hfo] at h
      | some u =>
        simp only [hfo] at h
        by_cases hm : comparePassword E u body.password = true
        · simp only [hm, Bool.not_true, Bool.false_eq_true, if_false] at h
          by_cases hv : User.validate (loginUpdate now body.userType u) = true
          · simp only [hv, Bool.not_true, Bool.false_eq_true, if_false] at h
            by_cases hs : io.save = true
            · simp [hs] at h
            · simp only [hs, if_false] at h
              injection h with h1 h2
              exact ⟨h1.symm, h2.symm⟩
          · simp [hv] at h
        · simp [hm] at h
  · simp [he] at h

/-- Every success answer of the server's login handler is refused by
`CindaAPI.login`: it throws an error with the message "Login successful" and
stores nothing. -/
theorem client_login_refuses_every_success (E : Externals) (io : Faults) (now : Date) (s : Store)
    (body : LoginBody) (st : Nat) (msg : String) (t : Token) (v : UserView)
    (sign : Token → String) (stringify : UserView → String) (b : Browser)
    (h : (login E io now s body).reply = .granted st msg t v) :
    (successBody sign (login E io now s body).reply).map
        (fun data => CindaAPI.login stringify b (.data data)) =
      some (b, .thrown "Login successful") := by
  obtain ⟨_, hmsg⟩ := login_granted_message E io now s body st msg t v h
  rw [h, hmsg]
  exact authenticate_rejects_success_body sign stringify "Login failed" b st "Login successful" t v
    (by decide)

/-- C21 fails on the code (failing input: the login of "a@x.io" with the
right password, and the registration of "b@x.io").  The server answers 200
"Login successful" (201 "Registration successful") with token and user; the
body has no field `success`, so `CindaAPI.login` (`CindaAPI.register`) throws an
error carrying the success message, and the token is not stored: the browser
state is as before.  Only a body with `success: true` is accepted. -/
theorem client_rejects_server_success :
    (login sampleExternals Faults.none 50 sampleAuthStore ⟨"a@x.io", "secret1", none⟩).reply =
      .granted 200 "Login successful" ⟨"u1", "filmmaker", "7d"⟩
        ⟨"u1", "User A", "a@x.io", "filmmaker", none, some ⟨0, 0, 0, 0⟩⟩ ∧
    (successBody sampleSign
        (login sampleExternals Faults.none 50 sampleAuthStore ⟨"a@x.io", "secret1", none⟩).reply).map
      (fun data => CindaAPI.login sampleStringify sampleGuest (.data data)) =
      some (sampleGuest, .thrown "Login successful") ∧
    (successBody sampleSign
        (register sampleExternals Faults.none 50 "u3" sampleAuthStore
          ⟨"Bob", "b@x.io", "secret1", "mentor"⟩).reply).map
      (fun data => CindaAPI.register sampleStringify sampleGuest (.data data)) =
      some (sampleGuest, .thrown "Registration successful") ∧
    (CindaAPI.login sampleStringify sampleGuest
      (.data ⟨some true, some "Login successful", some "jwt.u1.filmmaker",
        some ⟨"u1", "User A", "a@x.io", "filmmaker", none, none⟩⟩)).1.token =
      some "jwt.u1.filmmaker" := by
  decide

/-! ## `timeAgo` and `getFileExtension` -/

theorem timeAgoLoop_just_now (d : Int) (h : d < 1) : timeAgoLoop d intervals = "Just now" := by
  have h1 : ¬ d / 31536000 ≥ 1 := by omega
  have h2 : ¬ d / 2592000 ≥ 1 := by omega
  have h3 : ¬ d / 86400 ≥ 1 := by omega
  have h4 : ¬ d / 3600 ≥ 1 := by omega
  have h5 : ¬ d / 60 ≥ 1 := by omega
  have h6 : ¬ d / 1 ≥ 1 := by omega
  simp only [intervals, timeAgoLoop, h1, h2, h3, h4, h5, h6, if_false]

theorem timeAgoLoop_unit (d : Int) (h : 1 ≤ d) :
    ∃ label seconds, intervals.find? (fun u => decide (u.2 ≤ d)) = some (label, seconds) ∧
      0 < seconds ∧ 1 ≤ d / seconds ∧
      timeAgoLoop d intervals =
        toString (d / seconds) ++ " " ++ label ++ (if d / seconds ≠ 1 then "s" else "") ++ " ago" := by
  by_cases h1 : 31536000 ≤ d
  · have c1 : d / 31536000 ≥ 1 := by omega
    exact ⟨"year", 31536000, by simp [intervals, List.find?, h1], by decide, c1,
      by simp only [intervals, timeAgoLoop, c1, if_true, agoText]⟩
  have n1 : ¬ d / 31536000 ≥ 1 := by omega
  by_cases h2 : 2592000 ≤ d
  · have c2 : d / 2592000 ≥ 1 := by omega
    exact ⟨"month", 2592000, by simp [intervals, List.find?, h1, h2], by decide, c2,
      by simp only [intervals, timeAgoLoop, n1, c2, if_true, if_false, agoText]⟩
  have n2 : ¬ d / 2592000 ≥ 1 := by omega
  by_cases h3 : 86400 ≤ d
  · have c3 : d / 86400 ≥ 1 := by omega
    exact ⟨"day", 86400, by simp [intervals, List.find?, h1, h2, h3], by decide, c3,
      by simp only [intervals, timeAgoLoop, n1, n2, c3, if_true, if_false, agoText]⟩
  have n3 : ¬ d / 86400 ≥ 1 := by omega
  by_cases h4 : 3600 ≤ d
  · have c4 : d / 3600 ≥ 1 := by omega
    exact ⟨"hour", 3600, by simp [intervals, List.find?, h1, h2, h3, h4], by decide, c4,
      by simp only [intervals, timeAgoLoop, n1, n2, n3, c4, if_true, if_false, agoText]⟩
  have n4 : ¬ d / 3600 ≥ 1 := by omega
  by_cases h5 : 60 ≤ d
  · have c5 : d / 60 ≥ 1 := by omega
    exact ⟨"minute", 60, by simp [intervals, List.find?, h1, h2, h3, h4, h5], by decide, c5,
      by simp only [intervals, timeAgoLoop, n1, n2, n3, n4, c5, if_true, if_false, agoText]⟩
  have n5 : ¬ d / 60 ≥ 1 := by omega
  have c6 : d / 1 ≥ 1 := by omega
  exact ⟨"second", 1, by simp [intervals, List.find?, h1, h2, h3, h4, h5, h], by decide, c6,
    by simp only [intervals, timeAgoLoop, n1, n2, n3, n4, n5, c6, if_true, if_false, agoText]⟩

/-- C22: with `d = floor((now - date) / 1000)`, `timeAgo` is 'Just now' when
`d < 1`, which is the case for every date in the future; otherwise it is
`c unit ago`, with 's' appended to the unit exactly when `c ≠ 1`, where the
unit is the first of year, month, day, hour, minute, second whose length is at
most `d` and `c = floor(d / length)`, so that `c ≥ 1`; `d = 59` gives
'59 seconds ago' and `d = 60` gives '1 minute ago'. -/
theorem timeAgo_largest_fitting_unit (now date d : Int)
    (hd : d = (now - date) / 1000) :
    (d < 1 → timeAgo now date = "Just now") ∧
    (now < date → d < 1) ∧
    (1 ≤ d →
      ∃ label seconds, intervals.find? (fun u => decide (u.2 ≤ d)) = some (label, seconds) ∧
        0 < seconds ∧ 1 ≤ d / seconds ∧
        timeAgo now date =
          toString (d / seconds) ++ " " ++ label ++ (if d / seconds ≠ 1 then "s" else "") ++
            " ago") ∧
    (d = 59 → timeAgo now date = "59 seconds ago") ∧
    (d = 60 → timeAgo now date = "1 minute ago") := by
  have hrun : timeAgo now date = timeAgoLoop d intervals := by rw [hd]; rfl
  refine ⟨?_, ?_, ?_, ?_, ?_⟩
  · intro h
    rw [hrun]
    exact timeAgoLoop_just_now d h
  · intro h
    omega
  · intro h
    rw [hrun]
    exact timeAgoLoop_unit d h
  · intro h
    rw [hrun, h]
    decide
  · intro h
    rw [hrun, h]
    decide

/-- Instance of C22: a date 90 minutes and a bit in the past. -/
theorem timeAgo_largest_fitting_unit_witness : timeAgo 5400999 0 = "1 hour ago" := by
  have h := (timeAgo_largest_fitting_unit 5400999 0 5400 (by decide)).2.2.1 (by decide)
  obtain ⟨label, seconds, hfind, _, _, htext⟩ := h
  have hu : (label, seconds) = ("hour", (3600 : Int)) := by
    have : intervals.find? (fun u => decide (u.2 ≤ (5400 : Int))) = some ("hour", 3600) := by
      decide
    rw [this] at hfind
    exact (Option.some.inj hfind).symm
  cases hu
  rw [htext]
  decide

theorem lastIndexOfFrom_not_mem (c : Char) (xs : List Char) (i acc : Int) (h : c ∉ xs) :
    lastIndexOfFrom c xs i acc = acc := by
  induction xs generalizing i acc with
  | nil => rfl
  | cons x xs ih =>
    have hx : ¬ x = c := fun e => h (e ▸ List.mem_cons_self _ _)
    have hxs : c ∉ xs := fun e => h (List.mem_cons_of_mem _ e)
    simp only [lastIndexOfFrom, beq_iff_eq, hx, if_false]
    exact ih _ _ hxs

theorem lastIndexOfFrom_split (c : Char) (pre ext : List Char) (i acc : Int) (h : c ∉ ext) :
    lastIndexOfFrom c (pre ++ c :: ext) i acc = i + pre.length := by
  induction pre generalizing i acc with
  | nil =>
    simp only [List.nil_append, lastIndexOfFrom, beq_self_eq_true, if_true, List.length_nil]
    rw [lastIndexOfFrom_not_mem c ext _ _ h]
    simp
  | cons x xs ih =>
    show lastIndexOfFrom c (xs ++ c :: ext) (i + 1) (if x == c then i else acc) =
      i + ((xs.length + 1 : Nat) : Int)
    rw [ih]
    push_cast
    omega

/-- C23: for a filename shorter than 2^32 characters.  When the filename is
`pre.ext` with `pre` not empty and no '.' in `ext` (the last '.' is at index
`pre.length ≥ 1`), the result is `ext`, the text after the last '.'; when the
filename is `.ext` with no '.' in `ext` (last '.' at index 0) or contains no
'.', the result is the empty string. -/
theorem getFileExtension_after_last_dot (filename : String)
    (hlen : filename.length < 4294967296) :
    (∀ pre ext : List Char, filename.data = pre ++ '.' :: ext → '.' ∉ ext → pre ≠ [] →
      lastIndexOf filename.data '.' = pre.length ∧ getFileExtension filename = ⟨ext⟩) ∧
    (∀ ext : List Char, filename.data = '.' :: ext → '.' ∉ ext →
      lastIndexOf filename.data '.' = 0 ∧ getFileExtension filename = "") ∧
    ('.' ∉ filename.data →
      lastIndexOf filename.data '.' = -1 ∧ getFileExtension filename = "") := by
  have hlen1 : filename.data.length < 4294967296 := hlen
  refine ⟨?_, ?_, ?_⟩
  · intro pre ext hsplit hext hpre
    have hidx : lastIndexOf filename.data '.' = pre.length := by
      rw [hsplit, lastIndexOf, lastIndexOfFrom_split '.' pre ext 0 (-1) hext]
      simp
    refine ⟨hidx, ?_⟩
    have hpos : 0 < pre.length := List.length_pos.2 hpre
    have hbound : pre.length < 4294967296 := by
      rw [hsplit] at hlen1
      simp only [List.length_append, List.length_cons] at hlen1
      omega
    have hstart : toUint32 ((pre.length : Int) - 1) + 2 = ((pre.length + 1 : Nat) : Int) := by
      unfold toUint32
      push_cast
      omega
    unfold getFileExtension
    rw [hidx, hstart]
    have hneg : ¬ (((pre.length + 1 : Nat) : Int) < 0) := by omega
    simp only [slice, hneg, if_false, Int.toNat_ofNat]
    rw [hsplit]
    have : pre ++ '.' :: ext = (pre ++ ['.']) ++ ext := by simp
    rw [this, List.drop_append_of_le_length (by simp)]
    simp
  · intro ext hsplit hext
    have hidx : lastIndexOf filename.data '.' = 0 := by
      rw [hsplit, lastIndexOf]
      have := lastIndexOfFrom_split '.' [] ext 0 (-1) hext
      simpa using this
    refine ⟨hidx, ?_⟩
    unfold getFileExtension
    rw [hidx]
    have hstart : toUint32 ((0 : Int) - 1) + 2 = ((4294967297 : Nat) : Int) := by decide
    rw [hstart]
    have hneg : ¬ (((4294967297 : Nat) : Int) < 0) := by omega
    simp only [slice, hneg, if_false, Int.toNat_ofNat]
    rw [List.drop_eq_nil_of_le (by omega)]
  · intro hno
    have hidx : lastIndexOf filename.data '.' = -1 :=
      lastIndexOfFrom_not_mem '.' filename.data 0 (-1) hno
    refine ⟨hidx, ?_⟩
    unfold getFileExtension
    rw [hidx]
    have hstart : toUint32 ((-1 : Int) - 1) + 2 = ((4294967296 : Nat) : Int) := by decide
    rw [hstart]
    have hneg : ¬ (((4294967296 : Nat) : Int) < 0) := by omega
    simp only [slice, hneg, if_false, Int.toNat_ofNat]
    rw [List.drop_eq_nil_of_le (by omega)]

/-- Instance of C23: the three examples of the claim. -/
theorem getFileExtension_after_last_dot_witness :
    getFileExtension "a.tar.gz" = "gz" ∧ getFileExtension "README" = "" ∧
      getFileExtension ".bashrc" = "" :=
  ⟨((getFileExtension_after_last_dot "a.tar.gz" (by decide)).1
      ['a', '.', 't', 'a', 'r'] ['g', 'z'] rfl (by decide) (by decide)).2,
    ((getFileExtension_after_last_dot "README" (by decide)).2.2 (by decide)).2,
    ((getFileExtension_after_last_dot ".bashrc" (by decide)).2.1
      ['b', 'a', 's', 'h', 'r', 'c'] rfl (by decide)).2⟩

/-! ## Registration after a social login; rejected saves -/

/-- C8 fails on the code (failing input: a registration for
"john.doe@gmail.com" on the store in which that address has signed in through
a provider).  Social-login stores the user with exactly that e-mail, since it
does not call `normalizeEmail`; the registration passes the validation chain,
looks up the sanitised address "johndoe@gmail.com", finds no user, and answers
201 "Registration successful": a second user is created for an e-mail for
which a user exists. -/
theorem register_after_social_login_duplicates :
    storeAfterSocialLogin.users.map (fun u => u.email) = ["john.doe@gmail.com"] ∧
    registerErrors gmailExternals ⟨"John", "john.doe@gmail.com", "secret1", "filmmaker"⟩ = [] ∧
    (register gmailExternals Faults.none 20 "u2" storeAfterSocialLogin
        ⟨"John", "john.doe@gmail.com", "secret1", "filmmaker"⟩).reply =
      .granted 201 "Registration successful" ⟨"u2", "filmmaker", "7d"⟩
        ⟨"u2", "John", "johndoe@gmail.com", "filmmaker", none, none⟩ ∧
    (register gmailExternals Faults.none 20 "u2" storeAfterSocialLogin
        ⟨"John", "john.doe@gmail.com", "secret1", "filmmaker"⟩).store.users.map
      (fun u => u.email) = ["john.doe@gmail.com", "johndoe@gmail.com"] := by
  decide

/-- What login does when the updated document does not pass the schema
validation of `save`: 500 "Server error", no token, the store as received. -/
theorem login_invalid_document_rejected (E : Externals) (io : Faults) (now : Date) (s : Store)
    (body : LoginBody) (u : User) (hvalid : loginErrors E body = []) (hf : io.find = false)
    (hu : User.findOne E s.users (E.normalizeEmail body.email) = some u)
    (hm : comparePassword E u body.password = true)
    (hv : User.validate (loginUpdate now body.userType u) = false) :
    login E io now s body = ⟨s, .message 500 "Server error", none⟩ := by
  simp [login, hvalid, hf, hu, hm, hv]

/-- What social-login does when the document to save does not pass the
schema validation: 500 "Server error", no token, the store as received. -/
theorem socialLogin_invalid_document_rejected (E : Externals) (io : Faults) (now : Date)
    (freshId : ObjectId) (s : Store) (body : SocialBody) (email : String)
    (hf : io.find = false) (he : body.email = some email) :
    (∀ u, User.findOne E s.users email = some u →
      User.validate (socialUpdate now body.userType u) = false →
      socialLogin E io now freshId s body = ⟨s, .message 500 "Server error", none⟩) ∧
    (User.findOne E s.users email = none →
      User.validate (newSocialUser E now freshId body) = false →
      socialLogin E io now freshId s body = ⟨s, .message 500 "Server error", none⟩) := by
  refine ⟨?_, ?_⟩
  · intro u hu hv
    simp [socialLogin, hf, he, hu, hv]
  · intro hnone hv
    simp [socialLogin, hf, he, hnone, hv]

end CINDA
